import Mathlib

/-!
Service option parsing (`api/client/service/opts.go`).

A shallow embedding of the option types of the vendored Docker client package
`service` and theorems about them.

The source file carries unresolved merge markers.  Every conflict region has a
`HEAD` side and an incoming side (commit `12a5469`); the two sides do not mix
(`Writable`/`Populate` against `ReadOnly`/`NoCopy`).  The embedding follows the
incoming side of every region: the `readonly` and `volume-nocopy` keys, the
`source is required` check and the two `cannot mix` checks.

Conventions.
* A Go `string` is a list of runes (`Str`); only valid UTF-8 is covered.
* A Go `map[string]string` is an association list with at most one pair per key.
* A method with a pointer receiver that returns `error` becomes a function from
  the receiver to the pair (receiver afterwards, error), so that what a failed
  call leaves behind is part of the model.
* Routines of the Go standard library are modelled next to their callers and
  marked as such.  What is data or code of another package is a parameter: the
  Unicode case table above ASCII (`unicode.CaseTable`), the rational parser of
  `math/big` (the argument `SetString` of `nanoCPUs.Set`), the parsers behind
  the other setters and behind `ValidatePort` (`units.RAMInBytes`,
  `time.ParseDuration`, `strconv.ParseUint`, `nat.ParsePortSpec`) and the
  helpers of `ToService` (`Lib`).  The theorems hold for every value of these
  parameters; examples are evaluated at `unicode.noCaseTable`, at the stand-ins
  that carry the library's names and at `Lib.plain` and `Lib.publish`.
* A Go map is visited by `range` in an order the language leaves open; where
  the order matters it is a parameter as well (the first component of
  `Lib.ParsePortSpecs`).
-/

set_option autoImplicit false

deriving instance DecidableEq for Except

/-- A Go string, as its sequence of runes. -/
abbrev Str := List Char

/-- A Go `map[string]string`. -/
abbrev StrMap := List (Str × Str)

/-- The map read `m[k]`, with the comma-ok result. -/
def StrMap.get (m : StrMap) (k : Str) : Option Str :=
  List.lookup k m

/-- The map assignment `m[k] = v`. -/
def StrMap.set (m : StrMap) (k v : Str) : StrMap :=
  (k, v) :: m.filter (fun p => p.1 != k)

/-! ## Standard library: `unicode`, `strings`, `strconv` -/

namespace unicode

/-- The two case selectors `unicode.To` is called with here. -/
inductive Case
  | UpperCase
  | LowerCase
  deriving DecidableEq, Repr

/-- The lookup `unicode.To(_case, r)` in the table `unicode.CaseRanges`, for the
runes above `MaxASCII`.  The table is data of the Go distribution; the functions
below take it as a parameter and the theorems hold for every table. -/
abbrev CaseTable := Case → Char → Char

/-- The table that maps every rune to itself. -/
def noCaseTable : CaseTable := fun _ r => r

/-- `unicode.MaxASCII`. -/
def MaxASCII : Nat := 127

/-- `unicode.ToUpper`: ASCII letters are shifted, other ASCII runes are
returned as they are, the rest is looked up in the table. -/
def ToUpper (tab : CaseTable) (r : Char) : Char :=
  if r.toNat ≤ MaxASCII then
    if 'a'.toNat ≤ r.toNat ∧ r.toNat ≤ 'z'.toNat then Char.ofNat (r.toNat - 32) else r
  else tab Case.UpperCase r

/-- `unicode.ToLower`. -/
def ToLower (tab : CaseTable) (r : Char) : Char :=
  if r.toNat ≤ MaxASCII then
    if 'A'.toNat ≤ r.toNat ∧ r.toNat ≤ 'Z'.toNat then Char.ofNat (r.toNat + 32) else r
  else tab Case.LowerCase r

end unicode

namespace strings

/-- `strings.ToUpper(s)`: `unicode.ToUpper` mapped over the runes. -/
def ToUpper (tab : unicode.CaseTable) (s : Str) : Str :=
  s.map (unicode.ToUpper tab)

/-- `strings.ToLower(s)`: `unicode.ToLower` mapped over the runes. -/
def ToLower (tab : unicode.CaseTable) (s : Str) : Str :=
  s.map (unicode.ToLower tab)

/-- `strings.SplitN(s, "=", 2)`: `(s, none)` for the one-element result when
`s` holds no `=`, else `(before, some after)` around the first `=`. -/
def SplitN2 : Str → Str × Option Str
  | [] => ([], none)
  | c :: cs =>
    if c = '=' then ([], some cs)
    else
      match SplitN2 cs with
      | (k, v) => (c :: k, v)

end strings

namespace strconv

/-- `strconv.ParseBool`: `none` stands for the syntax error. -/
def ParseBool (s : Str) : Option Bool :=
  if s = "1".toList ∨ s = "t".toList ∨ s = "T".toList ∨ s = "TRUE".toList
      ∨ s = "true".toList ∨ s = "True".toList then some true
  else if s = "0".toList ∨ s = "f".toList ∨ s = "F".toList ∨ s = "FALSE".toList
      ∨ s = "false".toList ∨ s = "False".toList then some false
  else none

end strconv

/-! ## Standard library: `encoding/csv`

`csv.NewReader(strings.NewReader(value)).Read()` with the reader's default
settings (comma `,`, no comment rune, `LazyQuotes` and `TrimLeadingSpace` off),
after the reader of the Go releases this tree was vendored for (the rune-wise
`parseRecord`/`parseField`). -/

namespace csv

/-- The errors of `Reader.Read`: `io.EOF` or a `*csv.ParseError`. -/
inductive Error
  | EOF
  | ErrQuote (Line : Nat) (Column : Int)
  | ErrBareQuote (Line : Nat) (Column : Int)
  deriving DecidableEq, Repr

/-- The runes `Reader.readRune` delivers one after the other: `\r\n` is folded
to `\n`, and a `\r` that ends the input is read as the end of the input. -/
def runes : List Char → List Char
  | [] => []
  | [c] => if c = '\r' then [] else [c]
  | c :: d :: ds =>
    if c = '\r' ∧ d = '\n' then '\n' :: runes ds else c :: runes (d :: ds)

/-- Where `parseField` stands. -/
inductive Mode
  /-- before the first rune of a field -/
  | start
  /-- inside an unquoted field -/
  | bare
  /-- inside a quoted field -/
  | quoted
  /-- right after a `"` met inside a quoted field -/
  | quote
  deriving DecidableEq, Repr

/-- `Read` over the delivered runes: the loops of `Read`, `parseRecord` and
`parseField` as one pass.  `line` and `col` are `r.line` and `r.column` before
the next `readRune` (which adds one to the column), `fields` the fields of the
record so far, `field` the buffer `r.field`. -/
def scan : Mode → Nat → Int → List Str → Str → List Char → Except Error (List Str)
  -- the input ends
  | Mode.start, _, col, fields, _, [] =>
    -- parseRecord finds no rune at the start of a line: io.EOF;
    -- after a comma the empty last field is kept
    if col + 1 = 0 then Except.error Error.EOF else Except.ok (fields ++ [[]])
  | Mode.bare, _, _, fields, field, [] => Except.ok (fields ++ [field])
  | Mode.quoted, line, col, _, _, [] => Except.error (Error.ErrQuote line (col + 1))
  | Mode.quote, _, _, fields, field, [] => Except.ok (fields ++ [field])
  -- the first rune of a field
  | Mode.start, line, col, fields, _, c :: cs =>
    if c = ',' then scan Mode.start line (col + 1) (fields ++ [[]]) [] cs
    else if c = '\n' then
      -- a blank line is skipped and the next line starts a record
      if col + 1 = 0 then scan Mode.start (line + 1) (-1) [] [] cs
      else Except.ok (fields ++ [[]])
    else if c = '"' then scan Mode.quoted line (col + 1) fields [] cs
    else scan Mode.bare line (col + 1) fields [c] cs
  -- an unquoted field
  | Mode.bare, line, col, fields, field, c :: cs =>
    if c = ',' then scan Mode.start line (col + 1) (fields ++ [field]) [] cs
    else if c = '\n' then Except.ok (fields ++ [field])
    else if c = '"' then Except.error (Error.ErrBareQuote line (col + 1))
    else scan Mode.bare line (col + 1) fields (field ++ [c]) cs
  -- a quoted field
  | Mode.quoted, line, col, fields, field, c :: cs =>
    if c = '"' then scan Mode.quote line (col + 1) fields field cs
    else if c = '\n' then scan Mode.quoted (line + 1) (-1) fields (field ++ [c]) cs
    else scan Mode.quoted line (col + 1) fields (field ++ [c]) cs
  | Mode.quote, line, col, fields, field, c :: cs =>
    if c = ',' then scan Mode.start line (col + 1) (fields ++ [field]) [] cs
    else if c = '\n' then Except.ok (fields ++ [field])
    else if c = '"' then scan Mode.quoted line (col + 1) fields (field ++ [c]) cs
    else Except.error (Error.ErrQuote line col)

/-- `csv.NewReader(strings.NewReader(value)).Read()`: the fields of the first
record of `value`, or the error. -/
def Read (value : Str) : Except Error (List Str) :=
  scan Mode.start 1 (-1) [] [] (runes value)

end csv

/-! ## `swarm` types used by the options -/

namespace swarm

/-- `swarm.BindOptions`. -/
structure BindOptions where
  Propagation : Str := []
  deriving DecidableEq, Repr

/-- `swarm.Driver`; `Options` is `none` for the nil map. -/
structure Driver where
  Name : Str := []
  Options : Option StrMap := none
  deriving DecidableEq, Repr

/-- `swarm.VolumeOptions`; `DriverConfig` is `none` for the nil pointer.
`Labels` is only ever read and written after `make`, so the nil map is not
told apart from the empty one. -/
structure VolumeOptions where
  NoCopy : Bool := false
  Labels : StrMap := []
  DriverConfig : Option Driver := none
  deriving DecidableEq, Repr

/-- `swarm.Mount`, with the fields `MountOpt.Set` touches; the two option
pointers are `none` when nil. -/
structure Mount where
  /-- the field `Type` (a reserved word here) -/
  Type_ : Str := []
  Source : Str := []
  Target : Str := []
  ReadOnly : Bool := false
  BindOptions : Option BindOptions := none
  VolumeOptions : Option VolumeOptions := none
  deriving DecidableEq, Repr

/-- Modelled from the spec: the constant `swarm.MountTypeBind` is declared in the
package `types/swarm`, which is not among the sources; the spec names the mount
type `BIND`. -/
def MountTypeBind : Str := "BIND".toList

/-- Modelled from the spec: the constant `swarm.MountTypeVolume`, as
`MountTypeBind`; the spec names the mount type `VOLUME`. -/
def MountTypeVolume : Str := "VOLUME".toList

end swarm

/-- A Go `error` value of this package: an error of the CSV reader handed on
as it is, or the result of `fmt.Errorf` with its formatted message. -/
inductive error
  | csv (err : csv.Error)
  | Errorf (msg : Str)
  deriving DecidableEq, Repr

/-! ## `MountOpt` -/

/-- `MountOpt` is a Value type for parsing mounts. -/
structure MountOpt where
  values : List swarm.Mount := []
  deriving DecidableEq, Repr

namespace MountOpt

/-- The closure `volumeOptions` of `Set`: allocates `mount.VolumeOptions` (with
an empty label map) and its `DriverConfig` when they are nil and returns the
options.  The caller stores the changed options back into the mount, which is
what the writes through the returned pointer do. -/
def volumeOptions (mount : swarm.Mount) : swarm.VolumeOptions :=
  let vo : swarm.VolumeOptions :=
    match mount.VolumeOptions with
    | none => { Labels := [] }
    | some vo => vo
  match vo.DriverConfig with
  | none => { vo with DriverConfig := some {} }
  | some _ => vo

/-- The driver `volumeOptions().DriverConfig` points to. -/
def driverConfig (vo : swarm.VolumeOptions) : swarm.Driver :=
  match vo.DriverConfig with
  | none => {}
  | some d => d

/-- The closure `bindOptions` of `Set`. -/
def bindOptions (mount : swarm.Mount) : swarm.BindOptions :=
  match mount.BindOptions with
  | none => {}
  | some bo => bo

/-- The closure `setValueOnMap` of `Set`. -/
def setValueOnMap (target : StrMap) (value : Str) : StrMap :=
  match strings.SplitN2 value with
  | (_, none) => target.set value []
  | (k, some v) => target.set k v

/-- The body of the loop of `Set` for one field: the mount afterwards, or the
error `Set` returns from inside the loop. -/
def setField (tab : unicode.CaseTable) (mount : swarm.Mount) (field : Str) :
    Except error swarm.Mount :=
  match strings.SplitN2 field with
  | (_, none) =>
    -- len(parts) == 1, parts[0] is the field
    if strings.ToLower tab field = "readonly".toList then
      Except.ok { mount with ReadOnly := true }
    else if strings.ToLower tab field = "volume-nocopy".toList then
      Except.ok { mount with VolumeOptions := some { volumeOptions mount with NoCopy := true } }
    else
      Except.error (error.Errorf
        ("invalid field '".toList ++ field ++ "' must be a key=value pair".toList))
  | (key, some value) =>
    let k := strings.ToLower tab key
    if k = "type".toList then
      Except.ok { mount with Type_ := strings.ToUpper tab value }
    else if k = "source".toList then
      Except.ok { mount with Source := value }
    else if k = "target".toList then
      Except.ok { mount with Target := value }
    else if k = "readonly".toList then
      match strconv.ParseBool value with
      | none => Except.error (error.Errorf ("invalid value for readonly: ".toList ++ value))
      | some ro => Except.ok { mount with ReadOnly := ro }
    else if k = "bind-propagation".toList then
      Except.ok { mount with
        BindOptions := some { bindOptions mount with Propagation := strings.ToUpper tab value } }
    else if k = "volume-nocopy".toList then
      match strconv.ParseBool value with
      | none => Except.error (error.Errorf ("invalid value for populate: ".toList ++ value))
      | some b =>
        Except.ok { mount with VolumeOptions := some { volumeOptions mount with NoCopy := b } }
    else if k = "volume-label".toList then
      let vo := volumeOptions mount
      Except.ok { mount with
        VolumeOptions := some { vo with Labels := setValueOnMap vo.Labels value } }
    else if k = "volume-driver".toList then
      let vo := volumeOptions mount
      Except.ok { mount with
        VolumeOptions := some { vo with
          DriverConfig := some { driverConfig vo with Name := value } } }
    else if k = "volume-driver-opt".toList then
      let vo := volumeOptions mount
      let d := driverConfig vo
      let options : StrMap :=
        match d.Options with
        | none => []
        | some o => o
      Except.ok { mount with
        VolumeOptions := some { vo with
          DriverConfig := some { d with Options := some (setValueOnMap options value) } } }
    else
      Except.error (error.Errorf
        ("unexpected key '".toList ++ key ++ "' in '".toList ++ field ++ "'".toList))

/-- The loop `for _, field := range fields` of `Set`. -/
def setFields (tab : unicode.CaseTable) : List Str → swarm.Mount → Except error swarm.Mount
  | [], mount => Except.ok mount
  | field :: rest, mount =>
    match setField tab mount field with
    | Except.error e => Except.error e
    | Except.ok mount1 => setFields tab rest mount1

/-- The checks of `Set` after the loop: `none` when the mount passes. -/
def check (mount : swarm.Mount) : Option error :=
  if mount.Type_ = [] then
    some (error.Errorf "type is required".toList)
  else if mount.Target = [] then
    some (error.Errorf "target is required".toList)
  else if mount.VolumeOptions ≠ none ∧ mount.Source = [] then
    some (error.Errorf "source is required when specifying volume-* options".toList)
  else if mount.Type_ = "BIND".toList ∧ mount.VolumeOptions ≠ none then
    some (error.Errorf ("cannot mix 'volume-*' options with mount type '".toList
      ++ swarm.MountTypeBind ++ "'".toList))
  else if mount.Type_ = "VOLUME".toList ∧ mount.BindOptions ≠ none then
    some (error.Errorf ("cannot mix 'bind-*' options with mount type '".toList
      ++ swarm.MountTypeVolume ++ "'".toList))
  else none

/-- `func (m *MountOpt) Set(value string) error`: the receiver after the call
and the error returned (`none` for nil). -/
def Set (tab : unicode.CaseTable) (m : MountOpt) (value : Str) : MountOpt × Option error :=
  match csv.Read value with
  | Except.error err => (m, some (error.csv err))
  | Except.ok fields =>
    match setFields tab fields {} with
    | Except.error e => (m, some e)
    | Except.ok mount =>
      match check mount with
      | some e => (m, some e)
      | none => ({ m with values := m.values ++ [mount] }, none)

/-- `func (m *MountOpt) Value() []swarm.Mount`. -/
def Value (m : MountOpt) : List swarm.Mount :=
  m.values

end MountOpt

/-! ## Reading a record: the vocabulary of the statements -/

namespace MountOpt

/-- The key of a field as the loop of `Set` sees it, lower-cased: the text
before the first `=`, or the whole field when it holds none. -/
def fieldKey (tab : unicode.CaseTable) (field : Str) : Str :=
  strings.ToLower tab (strings.SplitN2 field).1

/-- The value of a field: the text after the first `=`, empty when there is none. -/
def fieldValue (field : Str) : Str :=
  match (strings.SplitN2 field).2 with
  | none => []
  | some v => v

/-- The last field of `fields` with the key `type` is a `key=value` field whose
value upper-cased is `T`. -/
def setsType (tab : unicode.CaseTable) (fields : List Str) (T : Str) : Prop :=
  ∃ pre key v post,
    fields = pre ++ (key ++ '=' :: v) :: post ∧ (∀ c ∈ key, c ≠ '=')
      ∧ strings.ToLower tab key = "type".toList ∧ strings.ToUpper tab v = T
      ∧ ∀ g ∈ post, fieldKey tab g ≠ "type".toList

/-- Some field of `fields` has one of the keys `keys`. -/
def supplies (tab : unicode.CaseTable) (fields : List Str) (keys : List Str) : Prop :=
  ∃ f ∈ fields, fieldKey tab f ∈ keys

/-- The volume-scoped keys. -/
def volumeKeys : List Str :=
  ["volume-nocopy".toList, "volume-label".toList, "volume-driver".toList,
    "volume-driver-opt".toList]

/-- The keys the `switch` of `Set` has a case for. -/
def knownKeys : List Str :=
  ["type".toList, "source".toList, "target".toList, "readonly".toList,
    "bind-propagation".toList, "volume-nocopy".toList, "volume-label".toList,
    "volume-driver".toList, "volume-driver-opt".toList]

end MountOpt

namespace csv

/-- A field that needs no quoting: it holds no comma, no double quote, no line
feed and no carriage return. -/
def plain (s : Str) : Prop :=
  ∀ c ∈ s, c ≠ ',' ∧ c ≠ '"' ∧ c ≠ '\n' ∧ c ≠ '\r'

instance (s : Str) : Decidable (plain s) := by
  unfold plain
  infer_instance

/-- The record that lists `fields`, comma between them, nothing quoted. -/
def record : List Str → Str
  | [] => []
  | [f] => f
  | f :: g :: rest => f ++ ',' :: record (g :: rest)

end csv

/-! ## `nanoCPUs` -/

namespace big

/-- `(*big.Int).Int64`: the low 64 bits of the magnitude read as an `int64`,
negated (in `int64`) for a negative number. -/
def Int.Int64 (x : ℤ) : ℤ :=
  let int64 : ℤ → ℤ := fun z => (z + 2 ^ 63) % 2 ^ 64 - 2 ^ 63
  let v := int64 ((x.natAbs % 2 ^ 64 : ℕ) : ℤ)
  if x < 0 then int64 (-v) else v

/-- The text before the first `sep` and, when there is one, the text after it. -/
def cut (sep : Char) : Str → Str × Option Str
  | [] => ([], none)
  | c :: cs =>
    if c = sep then ([], some cs)
    else
      match cut sep cs with
      | (a, b) => (c :: a, b)

/-- The number a string of decimal digits writes, after the digits `acc`;
`none` when a rune is no decimal digit. -/
def digits (acc : ℕ) : Str → Option ℕ
  | [] => some acc
  | c :: cs =>
    if '0'.toNat ≤ c.toNat ∧ c.toNat ≤ '9'.toNat then digits (10 * acc + (c.toNat - '0'.toNat)) cs
    else none

/-- A sign in front: whether it is `-`, and the rest. -/
def sign : Str → Bool × Str
  | [] => (false, [])
  | c :: cs => if c = '-' then (true, cs) else if c = '+' then (false, cs) else (false, c :: cs)

/-- The reading of `Rat.SetString` below as a numerator and a denominator, not
in lowest terms. -/
def Rat.scan (s : Str) : Option (ℤ × ℕ) :=
  match cut '/' s with
  | (a, some b) =>
    match sign a with
    | (neg, a1) =>
      if a1 = [] ∨ b = [] ∨ (a1.head? = some '0' ∧ a1 ≠ ['0']) ∨ b.head? = some '0' then none
      else
        match digits 0 a1, digits 0 b with
        | some n, some d => some (if neg then -(n : ℤ) else (n : ℤ), d)
        | _, _ => none
  | (_, none) =>
    match sign s with
    | (neg, s1) =>
      match cut '.' s1 with
      | (ip, none) =>
        if ip = [] then none
        else
          match digits 0 ip with
          | some n => some (if neg then -(n : ℤ) else (n : ℤ), 1)
          | none => none
      | (ip, some fp) =>
        if ip ++ fp = [] then none
        else
          match digits 0 (ip ++ fp) with
          | some n => some (if neg then -(n : ℤ) else (n : ℤ), 10 ^ fp.length)
          | none => none

/-- A reference for `(*big.Rat).SetString` on two forms of input every release
of `math/big` reads alike: a decimal number (optional sign, decimal digits, at
most one point, at least one digit) and a fraction `a/b` of an optionally signed
decimal integer and an unsigned one, neither with a leading zero, `b` not zero.
The forms with an exponent or a base marker are outside this reference (it
answers `none`); `nanoCPUs.Set` takes the parser as a parameter and this one is
used at inputs of the two forms only. -/
def Rat.SetString (s : Str) : Option ℚ :=
  match Rat.scan s with
  | none => none
  | some (n, d) => some (mkRat n d)

end big

/-- `type nanoCPUs int64`. -/
abbrev nanoCPUs := ℤ

namespace nanoCPUs

/-- `func (c *nanoCPUs) Set(value string) error`, over the parser
`new(big.Rat).SetString` (`none` for `ok == false`): the receiver after the
call and the error returned. -/
def Set (SetString : Str → Option ℚ) (c : nanoCPUs) (value : Str) : nanoCPUs × Option error :=
  match SetString value with
  | none =>
    (c, some (error.Errorf
      ("Failed to parse ".toList ++ value ++ " as a rational number".toList)))
  | some cpu =>
    let nano := cpu * 1000000000
    if ¬ nano.isInt then
      (c, some (error.Errorf "value is too precise".toList))
    else
      (big.Int.Int64 nano.num, none)

/-- `func (c *nanoCPUs) Value() int64`. -/
def Value (c : nanoCPUs) : ℤ :=
  c

end nanoCPUs

/-! ## The option groups and `serviceOptions` -/

namespace time

/-- `time.Duration`: a count of nanoseconds. -/
abbrev Duration := ℤ

end time

/-- `DefaultReplicas` is the default replicas to use for a replicated service. -/
def DefaultReplicas : ℕ := 1

/-- `type memBytes int64`. -/
abbrev memBytes := ℤ

/-- `func (m *memBytes) Value() int64`. -/
def memBytes.Value (m : memBytes) : ℤ :=
  m

/-- `DurationOpt` is an option type for `time.Duration` that uses a pointer;
`none` is the nil pointer. -/
structure DurationOpt where
  value : Option time.Duration := none
  deriving DecidableEq, Repr

/-- `func (d *DurationOpt) Value() *time.Duration`. -/
def DurationOpt.Value (d : DurationOpt) : Option time.Duration :=
  d.value

/-- `Uint64Opt` represents a uint64; `none` is the nil pointer. -/
structure Uint64Opt where
  value : Option ℕ := none
  deriving DecidableEq, Repr

/-- `func (i *Uint64Opt) Value() *uint64`. -/
def Uint64Opt.Value (i : Uint64Opt) : Option ℕ :=
  i.value

namespace opts

/-- `opts.ListOpts`, as the strings it holds. -/
structure ListOpts where
  values : List Str := []
  deriving DecidableEq, Repr

/-- `func (opts *ListOpts) GetAll() []string`. -/
def ListOpts.GetAll (o : ListOpts) : List Str :=
  o.values

end opts

namespace nat

/-- `nat.Port`, a string such as `80/tcp`. -/
abbrev Port := Str

/-- `nat.PortBinding`. -/
structure PortBinding where
  HostIP : Str := []
  HostPort : Str := []
  deriving DecidableEq, Repr

end nat

/-- What the packages outside this one contribute to `ToService`: their sources
are not part of the tree under study, the functions below take them as a
parameter and the theorems hold for every choice. -/
structure Lib where
  /-- `runconfigopts.ConvertKVStringsToMap` -/
  ConvertKVStringsToMap : List Str → StrMap
  /-- `nat.ParsePortSpecs`, error dropped: the keys of the first map in the
  order the `range` statement of `ToEndpointSpec` visits them, and the second
  map as a lookup -/
  ParsePortSpecs : List Str → List nat.Port × (nat.Port → List nat.PortBinding)
  /-- `(nat.Port).Proto` -/
  Proto : nat.Port → Str
  /-- `(nat.Port).Int` -/
  PortInt : nat.Port → ℤ
  /-- the first result of `strconv.ParseUint(s, 10, 16)` -/
  ParseUint : Str → ℕ

namespace swarm

/-- `swarm.Resources`. -/
structure Resources where
  NanoCPUs : ℤ := 0
  MemoryBytes : ℤ := 0
  deriving DecidableEq, Repr

/-- `swarm.ResourceRequirements`. -/
structure ResourceRequirements where
  Limits : Option Resources := none
  Reservations : Option Resources := none
  deriving DecidableEq, Repr

/-- `swarm.RestartPolicy`. -/
structure RestartPolicy where
  Condition : Str := []
  Delay : Option time.Duration := none
  MaxAttempts : Option ℕ := none
  Window : Option time.Duration := none
  deriving DecidableEq, Repr

/-- `swarm.NetworkAttachmentConfig`. -/
structure NetworkAttachmentConfig where
  Target : Str := []
  deriving DecidableEq, Repr

/-- `swarm.PortConfig`, with the fields `convertPortToPortConfig` fills. -/
structure PortConfig where
  Protocol : Str := []
  TargetPort : ℕ := 0
  PublishedPort : ℕ := 0
  deriving DecidableEq, Repr

/-- `swarm.EndpointSpec`. -/
structure EndpointSpec where
  Mode : Str := []
  Ports : List PortConfig := []
  deriving DecidableEq, Repr

/-- `swarm.Annotations`. -/
structure Annotations where
  Name : Str := []
  Labels : StrMap := []
  deriving DecidableEq, Repr

/-- `swarm.ContainerSpec`, with the fields `ToService` fills. -/
structure ContainerSpec where
  Image : Str := []
  Command : List Str := []
  Args : List Str := []
  Env : List Str := []
  Dir : Str := []
  User : Str := []
  Mounts : List Mount := []
  StopGracePeriod : Option time.Duration := none
  deriving DecidableEq, Repr

/-- `swarm.Placement`. -/
structure Placement where
  Constraints : List Str := []
  deriving DecidableEq, Repr

/-- `swarm.TaskSpec`. -/
structure TaskSpec where
  ContainerSpec : ContainerSpec := {}
  Resources : Option ResourceRequirements := none
  RestartPolicy : Option RestartPolicy := none
  Placement : Option Placement := none
  deriving DecidableEq, Repr

/-- `swarm.GlobalService`. -/
structure GlobalService where
  deriving DecidableEq, Repr

/-- `swarm.ReplicatedService`; `Replicas` is `none` for the nil pointer. -/
structure ReplicatedService where
  Replicas : Option ℕ := none
  deriving DecidableEq, Repr

/-- `swarm.ServiceMode`. -/
structure ServiceMode where
  Replicated : Option ReplicatedService := none
  Global : Option GlobalService := none
  deriving DecidableEq, Repr

/-- `swarm.UpdateConfig`. -/
structure UpdateConfig where
  Parallelism : ℕ := 0
  Delay : time.Duration := 0
  deriving DecidableEq, Repr

/-- `swarm.ServiceSpec`; the zero value `swarm.ServiceSpec{}` is `{}`. -/
structure ServiceSpec where
  Annotations : Annotations := {}
  TaskTemplate : TaskSpec := {}
  Mode : ServiceMode := {}
  UpdateConfig : Option UpdateConfig := none
  Networks : List NetworkAttachmentConfig := []
  EndpointSpec : Option EndpointSpec := none
  deriving DecidableEq, Repr

end swarm

/-- `type updateOptions struct`. -/
structure updateOptions where
  parallelism : ℕ := 0
  delay : time.Duration := 0
  deriving DecidableEq, Repr

/-- `type resourceOptions struct`. -/
structure resourceOptions where
  limitCPU : nanoCPUs := 0
  limitMemBytes : memBytes := 0
  resCPU : nanoCPUs := 0
  resMemBytes : memBytes := 0
  deriving DecidableEq, Repr

/-- `func (r *resourceOptions) ToResourceRequirements() *swarm.ResourceRequirements`. -/
def resourceOptions.ToResourceRequirements (r : resourceOptions) :
    swarm.ResourceRequirements :=
  { Limits := some { NanoCPUs := nanoCPUs.Value r.limitCPU,
                     MemoryBytes := memBytes.Value r.limitMemBytes },
    Reservations := some { NanoCPUs := nanoCPUs.Value r.resCPU,
                           MemoryBytes := memBytes.Value r.resMemBytes } }

/-- `type restartPolicyOptions struct`. -/
structure restartPolicyOptions where
  condition : Str := []
  delay : DurationOpt := {}
  maxAttempts : Uint64Opt := {}
  window : DurationOpt := {}
  deriving DecidableEq, Repr

/-- `func (r *restartPolicyOptions) ToRestartPolicy() *swarm.RestartPolicy`. -/
def restartPolicyOptions.ToRestartPolicy (r : restartPolicyOptions) : swarm.RestartPolicy :=
  { Condition := r.condition,
    Delay := r.delay.Value,
    MaxAttempts := r.maxAttempts.Value,
    Window := r.window.Value }

/-- `func convertNetworks(networks []string) []swarm.NetworkAttachmentConfig`. -/
def convertNetworks : List Str → List swarm.NetworkAttachmentConfig
  | [] => []
  | network :: rest => { Target := network } :: convertNetworks rest

/-- The conversion `uint32(x)` of an integer. -/
def uint32 (x : ℤ) : ℕ :=
  (x % 2 ^ 32).toNat

/-- `func convertPortToPortConfig(port, portBindings) []swarm.PortConfig`: one
entry for each binding of `portBindings[port]`, in the order of that slice. -/
def convertPortToPortConfig (tab : unicode.CaseTable) (lib : Lib) (port : nat.Port)
    (portBindings : nat.Port → List nat.PortBinding) : List swarm.PortConfig :=
  (portBindings port).map (fun binding =>
    { Protocol := strings.ToLower tab (lib.Proto port),
      TargetPort := uint32 (lib.PortInt port),
      PublishedPort := uint32 (lib.ParseUint binding.HostPort) })

/-- `type endpointOptions struct`. -/
structure endpointOptions where
  mode : Str := []
  ports : opts.ListOpts := {}
  deriving DecidableEq, Repr

/-- `func (e *endpointOptions) ToEndpointSpec() *swarm.EndpointSpec`. -/
def endpointOptions.ToEndpointSpec (tab : unicode.CaseTable) (lib : Lib)
    (e : endpointOptions) : swarm.EndpointSpec :=
  match lib.ParsePortSpecs e.ports.GetAll with
  | (ports, portBindings) =>
    { Mode := strings.ToLower tab e.mode,
      Ports := (ports.map (fun port => convertPortToPortConfig tab lib port portBindings)).flatten }

/-- `type serviceOptions struct`. -/
structure serviceOptions where
  name : Str := []
  labels : opts.ListOpts := {}
  image : Str := []
  command : List Str := []
  args : List Str := []
  env : opts.ListOpts := {}
  workdir : Str := []
  user : Str := []
  mounts : MountOpt := {}
  resources : resourceOptions := {}
  stopGrace : DurationOpt := {}
  replicas : Uint64Opt := {}
  mode : Str := []
  restartPolicy : restartPolicyOptions := {}
  constraints : List Str := []
  update : updateOptions := {}
  networks : List Str := []
  endpoint : endpointOptions := {}
  registryAuth : Bool := false
  deriving DecidableEq, Repr

namespace serviceOptions

/-- The composite literal `ToService` assigns to `service` before it looks at
the mode. -/
def service (tab : unicode.CaseTable) (lib : Lib) (opts : serviceOptions) : swarm.ServiceSpec :=
  { Annotations :=
      { Name := opts.name,
        Labels := lib.ConvertKVStringsToMap opts.labels.GetAll },
    TaskTemplate :=
      { ContainerSpec :=
          { Image := opts.image,
            Command := opts.command,
            Args := opts.args,
            Env := opts.env.GetAll,
            Dir := opts.workdir,
            User := opts.user,
            Mounts := opts.mounts.Value,
            StopGracePeriod := opts.stopGrace.Value },
        Resources := some opts.resources.ToResourceRequirements,
        RestartPolicy := some opts.restartPolicy.ToRestartPolicy,
        Placement := some { Constraints := opts.constraints } },
    Mode := {},
    UpdateConfig := some { Parallelism := opts.update.parallelism, Delay := opts.update.delay },
    Networks := convertNetworks opts.networks,
    EndpointSpec := some (opts.endpoint.ToEndpointSpec tab lib) }

/-- `func (opts *serviceOptions) ToService() (swarm.ServiceSpec, error)`. -/
def ToService (tab : unicode.CaseTable) (lib : Lib) (opts : serviceOptions) :
    swarm.ServiceSpec × Option error :=
  let service := opts.service tab lib
  if opts.mode = "global".toList then
    if opts.replicas.Value ≠ none then
      (service, some (error.Errorf "replicas can only be used with replicated mode".toList))
    else
      ({ service with Mode := { service.Mode with Global := some {} } }, none)
  else if opts.mode = "replicated".toList then
    ({ service with
        Mode := { service.Mode with Replicated := some { Replicas := opts.replicas.Value } } },
      none)
  else
    (service, some (error.Errorf ("Unknown mode: ".toList ++ opts.mode)))

end serviceOptions

/-- A library for evaluating examples: label strings are split at the first
`=`, no port is published. -/
def Lib.plain : Lib :=
  { ConvertKVStringsToMap := fun values =>
      values.foldl (fun m value => MountOpt.setValueOnMap m value) [],
    ParsePortSpecs := fun _ => ([], fun _ => []),
    Proto := fun _ => "tcp".toList,
    PortInt := fun _ => 0,
    ParseUint := fun _ => 0 }

/-! ## `memBytes`, `DurationOpt`, `Uint64Opt`: the setters -/

/-- `func (m *memBytes) Set(value string) error`, over `units.RAMInBytes` (its
two results; the package `go-units` is not part of the tree): the receiver
after the call, which takes the first result also when the second is an
error, and the error returned. -/
def memBytes.Set (RAMInBytes : Str → ℤ × Option error) (_m : memBytes) (value : Str) :
    memBytes × Option error :=
  match RAMInBytes value with
  | (val, err) => (val, err)

/-- `func (d *DurationOpt) Set(s string) error`, over `time.ParseDuration` (its
two results): the pointer is set to the first result also when the second is
an error. -/
def DurationOpt.Set (ParseDuration : Str → time.Duration × Option error) (_d : DurationOpt)
    (s : Str) : DurationOpt × Option error :=
  match ParseDuration s with
  | (v, err) => ({ value := some v }, err)

/-- `func (d *DurationOpt) String() string`, over `(time.Duration).String`. -/
def DurationOpt.String (durationString : time.Duration → Str) (d : DurationOpt) : Str :=
  match d.value with
  | some v => durationString v
  | none => "none".toList

/-- `func (i *Uint64Opt) Set(s string) error`, over `strconv.ParseUint(s, 0, 64)`
(its two results). -/
def Uint64Opt.Set (ParseUint : Str → ℕ × Option error) (_i : Uint64Opt) (s : Str) :
    Uint64Opt × Option error :=
  match ParseUint s with
  | (v, err) => ({ value := some v }, err)

/-- `fmt.Sprintf("%v", n)` for a `uint64`: the decimal digits. -/
def fmt.Sprintf_v (n : ℕ) : Str :=
  Nat.toDigits 10 n

/-- `func (i *Uint64Opt) String() string`. -/
def Uint64Opt.String (i : Uint64Opt) : Str :=
  match i.value with
  | some v => fmt.Sprintf_v v
  | none => "none".toList

namespace time

/-- A stand-in for `time.ParseDuration` that reads a whole number of seconds,
`<decimal digits>s`, and the bare `0`; the other forms the library reads are
outside it (it answers with an error).  Used to evaluate examples only. -/
def ParseDuration (s : Str) : Duration × Option error :=
  if s = "0".toList then (0, none)
  else
    match s.getLast?, big.digits 0 s.dropLast with
    | some 's', some n =>
      if s.dropLast = [] then (0, some (error.Errorf ("time: invalid duration ".toList ++ s)))
      else ((n : ℤ) * 1000000000, none)
    | _, _ => (0, some (error.Errorf ("time: invalid duration ".toList ++ s)))

/-- A stand-in for `(time.Duration).String` on whole seconds below one minute,
written `<decimal digits>s`; other durations are outside it (it writes the
count of nanoseconds followed by `ns`).  Used to evaluate examples only. -/
def Duration.String (d : Duration) : Str :=
  if d % 1000000000 = 0 ∧ 0 ≤ d ∧ d < 60000000000 then
    Nat.toDigits 10 (d / 1000000000).toNat ++ "s".toList
  else
    (if d < 0 then "-".toList else []) ++ Nat.toDigits 10 d.natAbs ++ "ns".toList

end time

/-- A stand-in for `strconv.ParseUint(s, 0, 64)` on decimal digits without a
leading zero (and the single digit `0`) below `2^64`; the forms with a base
marker are outside it (it answers with an error).  Used to evaluate examples
only. -/
def strconv.ParseUint (s : Str) : ℕ × Option error :=
  if s = [] ∨ (s.head? = some '0' ∧ s ≠ ['0']) then
    (0, some (error.Errorf ("strconv.ParseUint: parsing ".toList ++ s)))
  else
    match big.digits 0 s with
    | some n =>
      if n < 2 ^ 64 then (n, none)
      else (2 ^ 64 - 1, some (error.Errorf ("strconv.ParseUint: parsing ".toList ++ s)))
    | none => (0, some (error.Errorf ("strconv.ParseUint: parsing ".toList ++ s)))

/-- A stand-in for `units.RAMInBytes` on a plain count of bytes, decimal
digits only; sizes with a unit or a fraction are outside it (it answers `-1`
and an error, as the library does for what it cannot read).  Used
to evaluate examples only. -/
def units.RAMInBytes (s : Str) : ℤ × Option error :=
  if s = [] then (-1, some (error.Errorf ("invalid size: ".toList ++ s)))
  else
    match big.digits 0 s with
    | some n => ((n : ℤ), none)
    | none => (-1, some (error.Errorf ("invalid size: ".toList ++ s)))

/-! ## Published ports: `ValidatePort` and the list option -/

namespace nat

/-- `nat.PortMapping`. -/
structure PortMapping where
  Port : Port := []
  Binding : PortBinding := {}
  deriving DecidableEq, Repr

end nat

/-- The loop of `ValidatePort` over the port mappings: whether it returns from
inside, at a mapping with a host IP. -/
def ValidatePort.hasHostIP : List nat.PortMapping → Bool
  | [] => false
  | portMapping :: rest =>
    if portMapping.Binding.HostIP ≠ [] then true else ValidatePort.hasHostIP rest

/-- `func ValidatePort(value string) (string, error)`, over `nat.ParsePortSpec`
(its two results). -/
def ValidatePort (ParsePortSpec : Str → List nat.PortMapping × Option error) (value : Str) :
    Str × Option error :=
  match ParsePortSpec value with
  | (portMappings, err) =>
    if ValidatePort.hasHostIP portMappings then
      ([], some (error.Errorf "HostIP is not supported by a service.".toList))
    else (value, err)

/-- `func (opts *ListOpts) Set(value string) error` of the package `opts`, for
a list made by `opts.NewListOpts(validator)`: a value the validator rejects is
not stored, otherwise what the validator returns is appended. -/
def opts.ListOpts.Set (validator : Str → Str × Option error) (o : opts.ListOpts)
    (value : Str) : opts.ListOpts × Option error :=
  match validator value with
  | (_, some err) => (o, some err)
  | (v, none) => ({ o with values := o.values ++ [v] }, none)

/-! ## A reference port library -/

namespace nat

/-- The container port and the binding a publish string `H:C` of two decimal
numbers stands for, `none` for another form. -/
def readSpec (spec : Str) : Option (Port × PortBinding) :=
  match big.cut ':' spec with
  | (h, some c) =>
    match big.digits 0 h, big.digits 0 c with
    | some _, some _ =>
      if h = [] ∨ c = [] then none
      else some (c ++ "/tcp".toList, { HostIP := [], HostPort := h })
    | _, _ => none
  | (_, none) => none

/-- The keys of the port map the specs give, each once, in the order of first
mention. -/
def keys : List Str → List Port
  | [] => []
  | spec :: rest =>
    match readSpec spec with
    | some (p, _) => p :: (keys rest).filter (fun q => q ≠ p)
    | none => keys rest

/-- The bindings the specs give for `port`, in the order of the specs. -/
def bindings : List Str → Port → List PortBinding
  | [], _ => []
  | spec :: rest, port =>
    match readSpec spec with
    | some (p, b) => if p = port then b :: bindings rest port else bindings rest port
    | none => bindings rest port

end nat

/-- A reference for the port library on publish strings `H:C` of two decimal
numbers, read as the TCP port `C` bound to the host port `H` (strings of another
form are outside it and are skipped).  `order` is the order in which the `range`
statement of `ToEndpointSpec` visits the keys of the port map: the language
leaves it open, every rearrangement of the keys is possible.  Used
to evaluate examples only. -/
def Lib.publish (order : List nat.Port → List nat.Port) : Lib :=
  { ConvertKVStringsToMap := Lib.plain.ConvertKVStringsToMap,
    ParsePortSpecs := fun specs => (order (nat.keys specs), nat.bindings specs),
    Proto := fun port =>
      match (big.cut '/' port).2 with
      | some proto => proto
      | none => "tcp".toList,
    PortInt := fun port =>
      match big.digits 0 (big.cut '/' port).1 with
      | some n => (n : ℤ)
      | none => 0,
    ParseUint := fun s =>
      match big.digits 0 s with
      | some n => n
      | none => 0 }

/-- A stand-in for `nat.ParsePortSpec` on publish strings `H:C` and `IP:H:C`, `H`
and `C` decimal numbers, read as the one mapping of the TCP port `C` to the host
port `H`, on the host address `IP` when there is one; strings of another form
are outside it (it answers with an error).  Used to evaluate examples only. -/
def nat.ParsePortSpec (spec : Str) : List nat.PortMapping × Option error :=
  match big.cut ':' spec with
  | (a, some rest) =>
    match big.cut ':' rest with
    | (h, some c) =>
      match nat.readSpec (h ++ ':' :: c) with
      | some (p, b) =>
        if a = [] then ([], some (error.Errorf ("Invalid ip address: ".toList ++ a)))
        else ([{ Port := p, Binding := { b with HostIP := a } }], none)
      | none => ([], some (error.Errorf ("Invalid containerPort: ".toList ++ c)))
    | (_, none) =>
      match nat.readSpec spec with
      | some (p, b) => ([{ Port := p, Binding := b }], none)
      | none => ([], some (error.Errorf ("Invalid containerPort: ".toList ++ rest)))
  | (_, none) => ([], some (error.Errorf ("Invalid containerPort: ".toList ++ spec)))

/-! ## Resource quantities: the vocabulary of the statements -/

/-- A CPU quantity as the options can hold it: never set, or stored by a call
of `nanoCPUs.Set` that returned no error. -/
def nanoCPUs.settable (SetString : Str → Option ℚ) (c : nanoCPUs) : Prop :=
  c = 0 ∨ ∃ c0 s, nanoCPUs.Set SetString c0 s = (c, none)

/-- A memory quantity as the options can hold it: never set, or stored by a
call of `memBytes.Set` that returned no error. -/
def memBytes.settable (RAMInBytes : Str → ℤ × Option error) (m : memBytes) : Prop :=
  m = 0 ∨ ∃ m0 s, memBytes.Set RAMInBytes m0 s = (m, none)

/-- A CPU quantity never set, or stored by a call of `nanoCPUs.Set` that
returned no error on a string the parser reads as a `q` that is not negative
and with `q * 10^9` below `2^63`. -/
def nanoCPUs.settableInRange (SetString : Str → Option ℚ) (c : nanoCPUs) : Prop :=
  c = 0 ∨ ∃ c0 s q, SetString s = some q ∧ 0 ≤ q ∧ q * 10 ^ 9 < 2 ^ 63
    ∧ nanoCPUs.Set SetString c0 s = (c, none)

/-- A memory quantity never set, or stored by a call of `memBytes.Set` that
returned no error and for which the library answered a size that is not
negative. -/
def memBytes.settableNonneg (RAMInBytes : Str → ℤ × Option error) (m : memBytes) : Prop :=
  m = 0 ∨ ∃ m0 s, 0 ≤ (RAMInBytes s).1 ∧ memBytes.Set RAMInBytes m0 s = (m, none)

/-! ## Mount records that differ in the spelling of a field -/

/-- Two fields that differ at most in the letter case of the key: the text
after the first `=` is the same (or neither has one) and the keys are the same
once lower-cased. -/
def MountOpt.sameButKeyCase (tab : unicode.CaseTable) (f g : Str) : Prop :=
  (strings.SplitN2 f).2 = (strings.SplitN2 g).2 ∧ MountOpt.fieldKey tab f = MountOpt.fieldKey tab g

/-! ## Lemmas on the standard-library models -/

namespace strings

theorem SplitN2_key_value (key v : Str) (hkey : ∀ c ∈ key, c ≠ '=') :
    SplitN2 (key ++ '=' :: v) = (key, some v) := by
  induction key with
  | nil => simp [SplitN2]
  | cons c cs ih =>
    have hc : c ≠ '=' := hkey c (List.mem_cons_self _ _)
    have hcs : ∀ d ∈ cs, d ≠ '=' := fun d hd => hkey d (List.mem_cons_of_mem _ hd)
    simp [SplitN2, hc, ih hcs]

theorem SplitN2_some (s key v : Str) (h : SplitN2 s = (key, some v)) :
    s = key ++ '=' :: v ∧ ∀ c ∈ key, c ≠ '=' := by
  induction s generalizing key with
  | nil => simp [SplitN2] at h
  | cons c cs ih =>
    unfold SplitN2 at h
    by_cases hc : c = '='
    · simp [hc] at h
      obtain ⟨rfl, rfl⟩ := h
      simp [hc]
    · simp only [hc, if_false] at h
      cases hs : SplitN2 cs with
      | mk k w =>
        rw [hs] at h
        simp only [Prod.mk.injEq] at h
        obtain ⟨rfl, rfl⟩ := h
        obtain ⟨h1, h2⟩ := ih k hs
        refine ⟨by simp [h1], ?_⟩
        intro d hd
        rcases List.mem_cons.mp hd with rfl | hd
        · exact hc
        · exact h2 d hd

theorem SplitN2_none (s key : Str) (h : SplitN2 s = (key, none)) : key = s := by
  induction s generalizing key with
  | nil => simp [SplitN2] at h; exact h
  | cons c cs ih =>
    unfold SplitN2 at h
    by_cases hc : c = '='
    · simp [hc] at h
    · simp only [hc, if_false] at h
      cases hs : SplitN2 cs with
      | mk k w =>
        rw [hs] at h
        simp only [Prod.mk.injEq] at h
        obtain ⟨rfl, rfl⟩ := h
        rw [ih k hs]

theorem ToUpper_eq_nil (tab : unicode.CaseTable) (s : Str) : ToUpper tab s = [] ↔ s = [] := by
  simp [ToUpper]

end strings

/-! ## Lemmas on the loop of `MountOpt.Set` -/

namespace MountOpt

theorem fieldKey_key_value (tab : unicode.CaseTable) (key v : Str)
    (hkey : ∀ c ∈ key, c ≠ '=') :
    fieldKey tab (key ++ '=' :: v) = strings.ToLower tab key := by
  simp [fieldKey, strings.SplitN2_key_value key v hkey]

theorem volumeOptions_ne_none (mount : swarm.Mount) :
    (volumeOptions mount).DriverConfig ≠ none := by
  unfold volumeOptions
  cases mount.VolumeOptions with
  | none => simp
  | some vo => cases h : vo.DriverConfig <;> simp [h]

/-- A field with an unknown key makes the loop body fail. -/
theorem setField_unknown (tab : unicode.CaseTable) (mount : swarm.Mount) (key v : Str)
    (hkey : ∀ c ∈ key, c ≠ '=') (hk : strings.ToLower tab key ∉ knownKeys) :
    setField tab mount (key ++ '=' :: v) = Except.error (error.Errorf
      ("unexpected key \'".toList ++ key ++ "\' in \'".toList ++ (key ++ '=' :: v)
        ++ "\'".toList)) := by
  simp only [knownKeys, List.mem_cons, List.mem_singleton, not_or, List.not_mem_nil,
    or_false] at hk
  obtain ⟨h1, h2, h3, h4, h5, h6, h7, h8, h9⟩ := hk
  simp only [setField, strings.SplitN2_key_value key v hkey]
  simp only [h1, h2, h3, h4, h5, h6, h7, h8, h9, if_false]

/-- What one successful pass of the loop body does to the type, the target
and the two option pointers of the mount. -/
theorem setField_ok (tab : unicode.CaseTable) (mount mount1 : swarm.Mount) (field : Str)
    (h : setField tab mount field = Except.ok mount1) :
    (mount1.Type_ = if fieldKey tab field = "type".toList
        then strings.ToUpper tab (fieldValue field) else mount.Type_)
    ∧ (mount1.Target = if fieldKey tab field = "target".toList
        then fieldValue field else mount.Target)
    ∧ (mount1.Source = if fieldKey tab field = "source".toList
        then fieldValue field else mount.Source)
    ∧ (mount1.VolumeOptions ≠ none ↔
        (mount.VolumeOptions ≠ none ∨ fieldKey tab field ∈ volumeKeys))
    ∧ (mount1.BindOptions ≠ none ↔
        (mount.BindOptions ≠ none ∨ fieldKey tab field = "bind-propagation".toList)) := by
  rcases hs : strings.SplitN2 field with ⟨key, _ | value⟩
  · have hkey : key = field := strings.SplitN2_none field key hs
    subst hkey
    by_cases h1 : strings.ToLower tab key = "readonly".toList
    · simp [setField, hs, h1] at h
      subst h
      simp [fieldKey, fieldValue, hs, h1, volumeKeys]
    · by_cases h2 : strings.ToLower tab key = "volume-nocopy".toList
      · simp [setField, hs, h2] at h
        subst h
        simp [fieldKey, fieldValue, hs, h2, volumeKeys]
      · unfold setField at h
        rw [hs] at h
        simp only [h1, h2, if_false] at h
        cases h
  · by_cases hk : strings.ToLower tab key ∈ knownKeys
    · simp only [knownKeys, List.mem_cons, List.mem_singleton, List.not_mem_nil,
        or_false] at hk
      rcases hk with hk | hk | hk | hk | hk | hk | hk | hk | hk
      · simp [setField, hs, hk] at h
        subst h
        simp [fieldKey, fieldValue, hs, hk, volumeKeys]
      · simp [setField, hs, hk] at h
        subst h
        simp [fieldKey, fieldValue, hs, hk, volumeKeys]
      · simp [setField, hs, hk] at h
        subst h
        simp [fieldKey, fieldValue, hs, hk, volumeKeys]
      · simp [setField, hs, hk] at h
        cases hb : strconv.ParseBool value with
        | none => simp [hb] at h
        | some b =>
          simp [hb] at h
          subst h
          simp [fieldKey, fieldValue, hs, hk, volumeKeys]
      · simp [setField, hs, hk] at h
        subst h
        simp [fieldKey, fieldValue, hs, hk, volumeKeys]
      · simp [setField, hs, hk] at h
        cases hb : strconv.ParseBool value with
        | none => simp [hb] at h
        | some b =>
          simp [hb] at h
          subst h
          simp [fieldKey, fieldValue, hs, hk, volumeKeys]
      · simp [setField, hs, hk] at h
        subst h
        simp [fieldKey, fieldValue, hs, hk, volumeKeys]
      · simp [setField, hs, hk] at h
        subst h
        simp [fieldKey, fieldValue, hs, hk, volumeKeys]
      · simp [setField, hs, hk] at h
        subst h
        simp [fieldKey, fieldValue, hs, hk, volumeKeys]
    · obtain ⟨hf, hkey⟩ := strings.SplitN2_some field key value hs
      subst hf
      rw [setField_unknown tab mount key value hkey hk] at h
      cases h

theorem supplies_cons (tab : unicode.CaseTable) (f : Str) (rest keys : List Str) :
    supplies tab (f :: rest) keys ↔ (fieldKey tab f ∈ keys ∨ supplies tab rest keys) := by
  simp only [supplies, List.mem_cons, exists_eq_or_imp]

/-- What a successful run of the loop does to the option pointers. -/
theorem setFields_options (tab : unicode.CaseTable) (fields : List Str)
    (mount mount1 : swarm.Mount) (h : setFields tab fields mount = Except.ok mount1) :
    (mount1.VolumeOptions ≠ none ↔
        (mount.VolumeOptions ≠ none ∨ supplies tab fields volumeKeys))
    ∧ (mount1.BindOptions ≠ none ↔
        (mount.BindOptions ≠ none ∨ supplies tab fields ["bind-propagation".toList])) := by
  induction fields generalizing mount with
  | nil =>
    simp only [setFields, Except.ok.injEq] at h
    subst h
    simp [supplies]
  | cons f rest ih =>
    unfold setFields at h
    cases hf : setField tab mount f with
    | error e => rw [hf] at h; cases h
    | ok mount2 =>
      rw [hf] at h
      obtain ⟨_, _, _, hv, hb⟩ := setField_ok tab mount mount2 f hf
      obtain ⟨hv2, hb2⟩ := ih mount2 h
      constructor
      · rw [hv2, hv, supplies_cons, or_assoc]
      · rw [hb2, hb, supplies_cons, or_assoc, List.mem_singleton]

/-- The loop leaves the type alone when no field has the key `type`. -/
theorem setFields_Type_frame (tab : unicode.CaseTable) (fields : List Str)
    (mount mount1 : swarm.Mount) (h : setFields tab fields mount = Except.ok mount1)
    (hno : ∀ g ∈ fields, fieldKey tab g ≠ "type".toList) : mount1.Type_ = mount.Type_ := by
  induction fields generalizing mount with
  | nil =>
    simp only [setFields, Except.ok.injEq] at h
    rw [h]
  | cons f rest ih =>
    unfold setFields at h
    cases hf : setField tab mount f with
    | error e => rw [hf] at h; cases h
    | ok mount2 =>
      rw [hf] at h
      obtain ⟨ht, _⟩ := setField_ok tab mount mount2 f hf
      rw [if_neg (hno f (List.mem_cons_self _ _))] at ht
      rw [ih mount2 h (fun g hg => hno g (List.mem_cons_of_mem _ hg)), ht]

/-- After a successful run of the loop the type is what the last `type` field
says. -/
theorem setFields_Type (tab : unicode.CaseTable) (fields : List Str) (T : Str)
    (mount mount1 : swarm.Mount) (h : setFields tab fields mount = Except.ok mount1)
    (hT : setsType tab fields T) : mount1.Type_ = T := by
  obtain ⟨pre, key, v, post, hfields, hkey, hk, hv, hpost⟩ := hT
  subst hfields
  induction pre generalizing mount with
  | nil =>
    simp only [List.nil_append] at h
    unfold setFields at h
    cases hf : setField tab mount (key ++ '=' :: v) with
    | error e => rw [hf] at h; cases h
    | ok mount2 =>
      rw [hf] at h
      obtain ⟨ht, _⟩ := setField_ok tab mount mount2 _ hf
      rw [fieldKey_key_value tab key v hkey, if_pos hk] at ht
      rw [setFields_Type_frame tab post mount2 mount1 h hpost, ht, ← hv]
      simp [fieldValue, strings.SplitN2_key_value key v hkey]
  | cons f rest ih =>
    simp only [List.cons_append] at h
    unfold setFields at h
    cases hf : setField tab mount f with
    | error e => rw [hf] at h; cases h
    | ok mount2 =>
      rw [hf] at h
      exact ih mount2 h

/-- The type stays empty when every `type` field has an empty value. -/
theorem setFields_Type_empty (tab : unicode.CaseTable) (fields : List Str)
    (mount mount1 : swarm.Mount) (h : setFields tab fields mount = Except.ok mount1)
    (hno : ∀ f ∈ fields, fieldKey tab f = "type".toList → fieldValue f = [])
    (h0 : mount.Type_ = []) : mount1.Type_ = [] := by
  induction fields generalizing mount with
  | nil =>
    simp only [setFields, Except.ok.injEq] at h
    rw [← h, h0]
  | cons f rest ih =>
    unfold setFields at h
    cases hf : setField tab mount f with
    | error e => rw [hf] at h; cases h
    | ok mount2 =>
      rw [hf] at h
      obtain ⟨ht, _⟩ := setField_ok tab mount mount2 f hf
      apply ih mount2 h (fun g hg => hno g (List.mem_cons_of_mem _ hg))
      rw [ht]
      split
      · next hk => rw [hno f (List.mem_cons_self _ _) hk]; rfl
      · exact h0

/-- The target stays empty when every `target` field has an empty value. -/
theorem setFields_Target_empty (tab : unicode.CaseTable) (fields : List Str)
    (mount mount1 : swarm.Mount) (h : setFields tab fields mount = Except.ok mount1)
    (hno : ∀ f ∈ fields, fieldKey tab f = "target".toList → fieldValue f = [])
    (h0 : mount.Target = []) : mount1.Target = [] := by
  induction fields generalizing mount with
  | nil =>
    simp only [setFields, Except.ok.injEq] at h
    rw [← h, h0]
  | cons f rest ih =>
    unfold setFields at h
    cases hf : setField tab mount f with
    | error e => rw [hf] at h; cases h
    | ok mount2 =>
      rw [hf] at h
      obtain ⟨_, ht, _⟩ := setField_ok tab mount mount2 f hf
      apply ih mount2 h (fun g hg => hno g (List.mem_cons_of_mem _ hg))
      rw [ht]
      split
      · next hk => exact hno f (List.mem_cons_self _ _) hk
      · exact h0

/-- The loop fails when one of the fields has an unknown key. -/
theorem setFields_unknown (tab : unicode.CaseTable) (fields : List Str) (mount : swarm.Mount)
    (key v : Str) (hmem : key ++ '=' :: v ∈ fields) (hkey : ∀ c ∈ key, c ≠ '=')
    (hk : strings.ToLower tab key ∉ knownKeys) :
    ∃ e, setFields tab fields mount = Except.error e := by
  induction fields generalizing mount with
  | nil => cases hmem
  | cons f rest ih =>
    unfold setFields
    cases hf : setField tab mount f with
    | error e => exact ⟨e, rfl⟩
    | ok mount2 =>
      rcases List.mem_cons.mp hmem with hfeq | hrest
      · rw [← hfeq, setField_unknown tab mount key v hkey hk] at hf
        cases hf
      · exact ih mount2 hrest

/-- `Set` hands on whatever the checks after the loop say. -/
theorem Set_error_of_check (tab : unicode.CaseTable) (m : MountOpt) (value : Str)
    (hc : ∀ fields mount, csv.Read value = Except.ok fields →
      setFields tab fields {} = Except.ok mount → check mount ≠ none) :
    (Set tab m value).2 ≠ none := by
  unfold Set
  cases hr : csv.Read value with
  | error e => simp
  | ok fields =>
    cases hl : setFields tab fields {} with
    | error e => simp [hl]
    | ok mount =>
      have := hc fields mount hr hl
      cases hch : check mount with
      | none => exact absurd hch this
      | some e => simp [hl, hch]

theorem setFields_cons_ok (tab : unicode.CaseTable) (f : Str) (rest : List Str)
    (mount mount1 : swarm.Mount) (h : setField tab mount f = Except.ok mount1) :
    setFields tab (f :: rest) mount = setFields tab rest mount1 := by
  rw [setFields, h]

theorem setField_type (tab : unicode.CaseTable) (mount : swarm.Mount) (key v : Str)
    (hkey : ∀ c ∈ key, c ≠ '=') (hk : strings.ToLower tab key = "type".toList) :
    setField tab mount (key ++ '=' :: v)
      = Except.ok { mount with Type_ := strings.ToUpper tab v } := by
  simp [setField, strings.SplitN2_key_value key v hkey, hk]

theorem setField_source (tab : unicode.CaseTable) (mount : swarm.Mount) (key v : Str)
    (hkey : ∀ c ∈ key, c ≠ '=') (hk : strings.ToLower tab key = "source".toList) :
    setField tab mount (key ++ '=' :: v) = Except.ok { mount with Source := v } := by
  simp [setField, strings.SplitN2_key_value key v hkey, hk]

theorem setField_target (tab : unicode.CaseTable) (mount : swarm.Mount) (key v : Str)
    (hkey : ∀ c ∈ key, c ≠ '=') (hk : strings.ToLower tab key = "target".toList) :
    setField tab mount (key ++ '=' :: v) = Except.ok { mount with Target := v } := by
  simp [setField, strings.SplitN2_key_value key v hkey, hk]

theorem setField_volume_driver (tab : unicode.CaseTable) (mount : swarm.Mount) (key v : Str)
    (hkey : ∀ c ∈ key, c ≠ '=') (hk : strings.ToLower tab key = "volume-driver".toList) :
    setField tab mount (key ++ '=' :: v)
      = Except.ok { mount with
          VolumeOptions := some { volumeOptions mount with
            DriverConfig := some { driverConfig (volumeOptions mount) with Name := v } } } := by
  simp [setField, strings.SplitN2_key_value key v hkey, hk]

theorem setField_volume_driver_opt (tab : unicode.CaseTable) (mount : swarm.Mount)
    (key v : Str) (hkey : ∀ c ∈ key, c ≠ '=')
    (hk : strings.ToLower tab key = "volume-driver-opt".toList) :
    setField tab mount (key ++ '=' :: v)
      = Except.ok { mount with
          VolumeOptions := some { volumeOptions mount with
            DriverConfig := some { driverConfig (volumeOptions mount) with
              Options := some (setValueOnMap
                (match (driverConfig (volumeOptions mount)).Options with
                  | none => []
                  | some o => o) v) } } } := by
  simp [setField, strings.SplitN2_key_value key v hkey, hk]

end MountOpt

/-! ## Lemmas on the CSV reader -/

namespace csv

theorem plain_append (a b : Str) (ha : plain a) (hb : plain b) : plain (a ++ b) := by
  intro c hc
  rcases List.mem_append.mp hc with hc | hc
  · exact ha c hc
  · exact hb c hc

theorem runes_eq_self (s : List Char) (h : ∀ c ∈ s, c ≠ '\r') : runes s = s := by
  induction s with
  | nil => rfl
  | cons c cs ih =>
    have hc : c ≠ '\r' := h c (List.mem_cons_self _ _)
    have hcs : ∀ d ∈ cs, d ≠ '\r' := fun d hd => h d (List.mem_cons_of_mem _ hd)
    cases cs with
    | nil => simp [runes, hc]
    | cons d ds =>
      have := ih hcs
      simp [runes, hc, this]

theorem record_no_cr (fields : List Str) (h : ∀ f ∈ fields, plain f) :
    ∀ c ∈ record fields, c ≠ '\r' := by
  induction fields with
  | nil => intro c hc; cases hc
  | cons f rest ih =>
    have hf := h f (List.mem_cons_self _ _)
    have hrest : ∀ g ∈ rest, plain g := fun g hg => h g (List.mem_cons_of_mem _ hg)
    cases rest with
    | nil =>
      intro c hc
      exact (hf c hc).2.2.2
    | cons g rest2 =>
      intro c hc
      simp only [record, List.mem_append, List.mem_cons] at hc
      rcases hc with hc | hc | hc
      · exact (hf c hc).2.2.2
      · rw [hc]; decide
      · exact ih hrest c hc

/-- Inside an unquoted field the reader takes plain runes into the buffer. -/
theorem scan_bare_plain (p : Str) (hp : plain p) (line : Nat) (col : Int)
    (fields : List Str) (field : Str) (rest : List Char) :
    scan Mode.bare line col fields field (p ++ rest)
      = scan Mode.bare line (col + p.length) fields (field ++ p) rest := by
  induction p generalizing col field with
  | nil => simp
  | cons c cs ih =>
    obtain ⟨h1, h2, h3, _⟩ := hp c (List.mem_cons_self _ _)
    have hcs : plain cs := fun d hd => hp d (List.mem_cons_of_mem _ hd)
    rw [List.cons_append]
    simp only [scan, h1, h2, h3, if_false]
    rw [ih hcs]
    simp only [List.length_cons, Nat.cast_add, Nat.cast_one, List.append_assoc,
      List.singleton_append]
    congr 1
    omega

/-- A plain field followed by a comma is read as it stands. -/
theorem scan_start_field_comma (p : Str) (hp : plain p) (line : Nat) (col : Int)
    (fields : List Str) (rest : List Char) :
    scan Mode.start line col fields [] (p ++ ',' :: rest)
      = scan Mode.start line (col + p.length + 1) (fields ++ [p]) [] rest := by
  cases p with
  | nil => simp [scan]
  | cons c cs =>
    obtain ⟨h1, h2, h3, _⟩ := hp c (List.mem_cons_self _ _)
    have hcs : plain cs := fun d hd => hp d (List.mem_cons_of_mem _ hd)
    rw [List.cons_append]
    simp only [scan, h1, h2, h3, if_false]
    rw [scan_bare_plain cs hcs]
    simp only [scan, if_true, List.singleton_append, List.length_cons, Nat.cast_add,
      Nat.cast_one]
    congr 1
    omega

/-- A plain field that ends the input is read as it stands. -/
theorem scan_start_field_end (p : Str) (hp : plain p) (line : Nat) (col : Int)
    (fields : List Str) (h : col + 1 = 0 → p ≠ []) :
    scan Mode.start line col fields [] p = Except.ok (fields ++ [p]) := by
  cases p with
  | nil =>
    have : col + 1 ≠ 0 := fun hc => h hc rfl
    simp [scan, this]
  | cons c cs =>
    obtain ⟨h1, h2, h3, _⟩ := hp c (List.mem_cons_self _ _)
    have hcs : plain cs := fun d hd => hp d (List.mem_cons_of_mem _ hd)
    simp only [scan, h1, h2, h3, if_false]
    have := scan_bare_plain cs hcs line (col + 1) fields [c] []
    rw [List.append_nil] at this
    rw [this]
    simp [scan]

theorem scan_record (fields : List Str) (hne : fields ≠ [])
    (hp : ∀ f ∈ fields, plain f) (line : Nat) (col : Int) (acc : List Str)
    (hcol : 0 ≤ col + 1) (h : col + 1 = 0 → fields ≠ [[]]) :
    scan Mode.start line col acc [] (record fields) = Except.ok (acc ++ fields) := by
  induction fields generalizing col acc with
  | nil => exact absurd rfl hne
  | cons f rest ih =>
    have hf := hp f (List.mem_cons_self _ _)
    have hrest : ∀ g ∈ rest, plain g := fun g hg => hp g (List.mem_cons_of_mem _ hg)
    cases rest with
    | nil =>
      simp only [record]
      apply scan_start_field_end f hf
      intro hc hf0
      exact h hc (by rw [hf0])
    | cons g rest2 =>
      simp only [record]
      rw [scan_start_field_comma f hf]
      rw [ih (List.cons_ne_nil _ _) hrest (col + f.length + 1) (acc ++ [f]) (by omega)
        (fun hc => by omega)]
      simp

/-- A record of plain fields is read back as these fields (the empty record,
which lists one empty field, is the end of the input). -/
theorem Read_record (fields : List Str) (hne : fields ≠ []) (h1 : fields ≠ [[]])
    (hp : ∀ f ∈ fields, plain f) : Read (record fields) = Except.ok fields := by
  unfold Read
  rw [runes_eq_self _ (record_no_cr fields hp)]
  have := scan_record fields hne hp 1 (-1) [] (by decide) (fun _ => h1)
  simpa using this

end csv

/-! ## Lemmas on `nanoCPUs.Set` -/

namespace big

/-- Inside the range of `int64` the conversion `Int64` loses nothing. -/
theorem Int.Int64_of_range (x : ℤ) (h1 : -2 ^ 63 ≤ x) (h2 : x < 2 ^ 63) : Int.Int64 x = x := by
  unfold Int.Int64
  simp only
  split_ifs with hneg <;> omega

end big

namespace nanoCPUs

theorem Set_error_eq_none_iff (SetString : Str → Option ℚ) (c : nanoCPUs) (s : Str) :
    (Set SetString c s).2 = none
      ↔ ∃ q, SetString s = some q ∧ (q * 1000000000).isInt = true := by
  unfold Set
  cases h : SetString s with
  | none => simp
  | some cpu =>
    by_cases hi : (cpu * 1000000000).isInt = true
    · simp [hi]
    · simp [hi]

/-- What `Set` stores and returns once the parser has read `q` and `q * 10^9` is
the integer `n`. -/
theorem Set_of_parsed (SetString : Str → Option ℚ) (c : nanoCPUs) (s : Str) (q : ℚ) (n : ℤ)
    (hq : SetString s = some q) (hn : q * 1000000000 = (n : ℚ)) :
    Set SetString c s = (big.Int.Int64 n, none) := by
  unfold Set
  rw [hq]
  simp only [hn]
  simp [Rat.isInt]

/-- `Set` fails and leaves the receiver alone once the parser has read `q` and
`q * 10^9` is no integer. -/
theorem Set_of_too_precise (SetString : Str → Option ℚ) (c : nanoCPUs) (s : Str) (q : ℚ)
    (hq : SetString s = some q) (hn : (q * 1000000000).den ≠ 1) :
    Set SetString c s = (c, some (error.Errorf "value is too precise".toList)) := by
  unfold Set
  rw [hq]
  simp [Rat.isInt, hn]

end nanoCPUs

/-! ## Lemmas on `serviceOptions.ToService` -/

namespace serviceOptions

theorem ToService_global_unset (tab : unicode.CaseTable) (lib : Lib) (opts : serviceOptions)
    (hg : opts.mode = "global".toList) (hr : opts.replicas.Value = none) :
    opts.ToService tab lib
      = ({ opts.service tab lib with
            Mode := { (opts.service tab lib).Mode with Global := some {} } }, none) := by
  unfold ToService
  rw [if_pos hg, if_neg (not_not.mpr hr)]

theorem ToService_global_set (tab : unicode.CaseTable) (lib : Lib) (opts : serviceOptions)
    (hg : opts.mode = "global".toList) (hr : opts.replicas.Value ≠ none) :
    opts.ToService tab lib
      = (opts.service tab lib,
          some (error.Errorf "replicas can only be used with replicated mode".toList)) := by
  unfold ToService
  rw [if_pos hg, if_pos hr]

theorem ToService_eq_of_replicated (tab : unicode.CaseTable) (lib : Lib) (opts : serviceOptions)
    (hp : opts.mode = "replicated".toList) :
    opts.ToService tab lib
      = ({ opts.service tab lib with
            Mode := { (opts.service tab lib).Mode with
              Replicated := some { Replicas := opts.replicas.Value } } }, none) := by
  have hg : opts.mode ≠ "global".toList := by
    rw [hp]
    decide
  unfold ToService
  rw [if_neg hg, if_pos hp]

theorem ToService_other (tab : unicode.CaseTable) (lib : Lib) (opts : serviceOptions)
    (hg : opts.mode ≠ "global".toList) (hp : opts.mode ≠ "replicated".toList) :
    opts.ToService tab lib
      = (opts.service tab lib, some (error.Errorf ("Unknown mode: ".toList ++ opts.mode))) := by
  unfold ToService
  rw [if_neg hg, if_neg hp]

end serviceOptions

/-! ## Mount records: conflicts, required fields, unknown keys -/

/-- C1. A record whose last `type` field says `bind` (in any letter case) and
that has a field with a volume-scoped key (`volume-nocopy`, `volume-label`,
`volume-driver`, `volume-driver-opt`) makes `MountOpt.Set` return an error, and
so does a record whose last `type` field says `volume` and that has a
`bind-propagation` field. -/
theorem MountOpt.Set_conflicting_options (tab : unicode.CaseTable) (m : MountOpt)
    (value : Str) (fields : List Str) (hread : csv.Read value = Except.ok fields)
    (h : (MountOpt.setsType tab fields "BIND".toList
            ∧ MountOpt.supplies tab fields MountOpt.volumeKeys)
        ∨ (MountOpt.setsType tab fields "VOLUME".toList
            ∧ MountOpt.supplies tab fields ["bind-propagation".toList])) :
    (MountOpt.Set tab m value).2 ≠ none := by
  apply MountOpt.Set_error_of_check
  intro fields1 mount hr hl
  rw [hread] at hr
  obtain rfl := Except.ok.inj hr
  obtain ⟨hv, hb⟩ := MountOpt.setFields_options tab fields _ mount hl
  rcases h with ⟨hT, hs⟩ | ⟨hT, hs⟩
  · have hty := MountOpt.setFields_Type tab fields _ _ mount hl hT
    have hvo : mount.VolumeOptions ≠ none := hv.mpr (Or.inr hs)
    unfold MountOpt.check
    split_ifs <;> simp_all
  · have hty := MountOpt.setFields_Type tab fields _ _ mount hl hT
    have hbo : mount.BindOptions ≠ none := hb.mpr (Or.inr hs)
    unfold MountOpt.check
    split_ifs <;> simp_all

/-- C1, at the records `type=bind,target=/b,volume-driver=local` and
`type=volume,source=v,target=/b,bind-propagation=shared`. -/
theorem MountOpt.Set_conflicting_options_witness :
    (MountOpt.Set unicode.noCaseTable {} "type=bind,target=/b,volume-driver=local".toList).2
      ≠ none
    ∧ (MountOpt.Set unicode.noCaseTable {}
        "type=volume,source=v,target=/b,bind-propagation=shared".toList).2 ≠ none :=
  ⟨MountOpt.Set_conflicting_options unicode.noCaseTable {}
      "type=bind,target=/b,volume-driver=local".toList
      ["type=bind".toList, "target=/b".toList, "volume-driver=local".toList]
      (by decide)
      (Or.inl ⟨⟨[], "type".toList, "bind".toList,
          ["target=/b".toList, "volume-driver=local".toList],
          by decide, by decide, by decide, by decide, by decide⟩,
        ⟨"volume-driver=local".toList, by decide, by decide⟩⟩),
    MountOpt.Set_conflicting_options unicode.noCaseTable {}
      "type=volume,source=v,target=/b,bind-propagation=shared".toList
      ["type=volume".toList, "source=v".toList, "target=/b".toList,
        "bind-propagation=shared".toList]
      (by decide)
      (Or.inr ⟨⟨[], "type".toList, "volume".toList,
          ["source=v".toList, "target=/b".toList, "bind-propagation=shared".toList],
          by decide, by decide, by decide, by decide, by decide⟩,
        ⟨"bind-propagation=shared".toList, by decide, by decide⟩⟩)⟩

/-- C2. A record in which every `type` field has an empty value (in particular
one with no `type` field), or in which every `target` field has an empty value,
makes `MountOpt.Set` return an error. -/
theorem MountOpt.Set_requires_type_and_target (tab : unicode.CaseTable) (m : MountOpt)
    (value : Str)
    (h : ∀ fields, csv.Read value = Except.ok fields →
      (∀ f ∈ fields, MountOpt.fieldKey tab f = "type".toList → MountOpt.fieldValue f = [])
      ∨ (∀ f ∈ fields, MountOpt.fieldKey tab f = "target".toList
          → MountOpt.fieldValue f = [])) :
    (MountOpt.Set tab m value).2 ≠ none := by
  apply MountOpt.Set_error_of_check
  intro fields mount hr hl
  unfold MountOpt.check
  rcases h fields hr with hno | hno
  · have := MountOpt.setFields_Type_empty tab fields _ mount hl hno rfl
    rw [if_pos this]
    simp
  · have := MountOpt.setFields_Target_empty tab fields _ mount hl hno rfl
    by_cases hty : mount.Type_ = []
    · rw [if_pos hty]
      simp
    · rw [if_neg hty, if_pos this]
      simp

/-- C2, at the records `type=bind,source=/a`, which has no target, and
`source=/a,target=/b`, which has no type. -/
theorem MountOpt.Set_requires_type_and_target_witness :
    (MountOpt.Set unicode.noCaseTable {} "type=bind,source=/a".toList).2 ≠ none
    ∧ (MountOpt.Set unicode.noCaseTable {} "source=/a,target=/b".toList).2 ≠ none :=
  ⟨MountOpt.Set_requires_type_and_target unicode.noCaseTable {} "type=bind,source=/a".toList
      (fun fields hr => by
        have hfields : csv.Read "type=bind,source=/a".toList
            = Except.ok ["type=bind".toList, "source=/a".toList] := by decide
        rw [hfields] at hr
        obtain rfl := Except.ok.inj hr
        exact Or.inr (by decide)),
    MountOpt.Set_requires_type_and_target unicode.noCaseTable {} "source=/a,target=/b".toList
      (fun fields hr => by
        have hfields : csv.Read "source=/a,target=/b".toList
            = Except.ok ["source=/a".toList, "target=/b".toList] := by decide
        rw [hfields] at hr
        obtain rfl := Except.ok.inj hr
        exact Or.inl (by decide))⟩

/-- C5. A record with a `key=value` field whose lower-cased key is none of
`type`, `source`, `target`, `readonly`, `bind-propagation`, `volume-nocopy`,
`volume-label`, `volume-driver`, `volume-driver-opt` makes `MountOpt.Set` return
an error, whatever the other fields are. -/
theorem MountOpt.Set_unknown_key (tab : unicode.CaseTable) (m : MountOpt)
    (value : Str) (fields : List Str) (key v : Str)
    (hread : csv.Read value = Except.ok fields)
    (hmem : key ++ '=' :: v ∈ fields) (hkey : ∀ c ∈ key, c ≠ '=')
    (hk : strings.ToLower tab key ∉ MountOpt.knownKeys) :
    (MountOpt.Set tab m value).2 ≠ none := by
  obtain ⟨e, he⟩ := MountOpt.setFields_unknown tab fields {} key v hmem hkey hk
  unfold MountOpt.Set
  rw [hread]
  simp only [he]
  simp

/-- C5, at the record `type=bind,colour=red,target=/b`. -/
theorem MountOpt.Set_unknown_key_witness :
    (MountOpt.Set unicode.noCaseTable {} "type=bind,colour=red,target=/b".toList).2 ≠ none :=
  MountOpt.Set_unknown_key unicode.noCaseTable {} "type=bind,colour=red,target=/b".toList
    ["type=bind".toList, "colour=red".toList, "target=/b".toList]
    "colour".toList "red".toList (by decide) (by decide) (by decide) (by decide)

/-! ## Mount records: what a well-formed record yields -/

/-- C3. A record `type=T,source=S,target=G` whose three values need no CSV
quoting, with `T` and `G` non-empty, is accepted, and the one entry `Set`
appends has the type `T` upper-cased, the source `S`, the target `G`, the
read-only flag at its zero value and no bind or volume options. -/
theorem MountOpt.Set_type_source_target (tab : unicode.CaseTable) (m : MountOpt)
    (T S G : Str) (hT : csv.plain T) (hS : csv.plain S) (hG : csv.plain G)
    (hT0 : T ≠ []) (hG0 : G ≠ []) :
    MountOpt.Set tab m
        ("type=".toList ++ T ++ ",source=".toList ++ S ++ ",target=".toList ++ G)
      = ({ values := m.values ++
            [{ Type_ := strings.ToUpper tab T, Source := S, Target := G, ReadOnly := false,
               BindOptions := none, VolumeOptions := none }] }, none) := by
  have e1 : "type=".toList ++ T = "type".toList ++ '=' :: T := rfl
  have e2 : "source=".toList ++ S = "source".toList ++ '=' :: S := rfl
  have e3 : "target=".toList ++ G = "target".toList ++ '=' :: G := rfl
  have hplain : ∀ f ∈ ["type=".toList ++ T, "source=".toList ++ S, "target=".toList ++ G],
      csv.plain f := by
    intro f hf
    simp only [List.mem_cons, List.mem_singleton, List.not_mem_nil, or_false] at hf
    rcases hf with rfl | rfl | rfl
    · exact csv.plain_append _ _ (by decide) hT
    · exact csv.plain_append _ _ (by decide) hS
    · exact csv.plain_append _ _ (by decide) hG
  have hread := csv.Read_record
    ["type=".toList ++ T, "source=".toList ++ S, "target=".toList ++ G]
    (by simp) (by simp) hplain
  have hvalue : "type=".toList ++ T ++ ",source=".toList ++ S ++ ",target=".toList ++ G
      = csv.record ["type=".toList ++ T, "source=".toList ++ S, "target=".toList ++ G] := by
    simp [csv.record]
  have hloop : MountOpt.setFields tab
      ["type=".toList ++ T, "source=".toList ++ S, "target=".toList ++ G] {}
      = Except.ok { Type_ := strings.ToUpper tab T, Source := S, Target := G } := by
    rw [e1, e2, e3]
    rw [MountOpt.setFields_cons_ok tab _ _ _ _
      (MountOpt.setField_type tab _ "type".toList T (by decide) rfl)]
    rw [MountOpt.setFields_cons_ok tab _ _ _ _
      (MountOpt.setField_source tab _ "source".toList S (by decide) rfl)]
    rw [MountOpt.setFields_cons_ok tab _ _ _ _
      (MountOpt.setField_target tab _ "target".toList G (by decide) rfl)]
    rfl
  have hTu : strings.ToUpper tab T ≠ [] := by
    rw [Ne, strings.ToUpper_eq_nil]
    exact hT0
  rw [hvalue]
  unfold MountOpt.Set
  rw [hread]
  simp only [hloop]
  simp [MountOpt.check, hTu, hG0]

/-- C3, at the record `type=bind,source=/a,target=/b`. -/
theorem MountOpt.Set_type_source_target_witness :
    MountOpt.Set unicode.noCaseTable {} "type=bind,source=/a,target=/b".toList
      = ({ values := [{ Type_ := "BIND".toList, Source := "/a".toList,
                        Target := "/b".toList }] }, none) :=
  MountOpt.Set_type_source_target unicode.noCaseTable {} "bind".toList "/a".toList
    "/b".toList (by decide) (by decide) (by decide) (by decide) (by decide)

/-- C4, as stated, fails at its own example: the record
`type=volume,target=/data,volume-driver=local,volume-driver-opt=foo=bar` has
volume options and no source, and `Set` rejects it. -/
theorem MountOpt.Set_rejects_volume_without_source :
    MountOpt.Set unicode.noCaseTable {}
        "type=volume,target=/data,volume-driver=local,volume-driver-opt=foo=bar".toList
      = ({}, some (error.Errorf
          "source is required when specifying volume-* options".toList)) := by
  decide

/-- C4, amended. A record
`type=volume,source=S,target=G,volume-driver=D,volume-driver-opt=K=V` whose
values need no CSV quoting, with `S` and `G` non-empty and no `=` in `K`, is
accepted: `Set` appends a `VOLUME` entry whose driver is `D` and whose driver
options are the map with the one key `K`, mapped to `V`.  The same record
without the `source` field is rejected. -/
theorem MountOpt.Set_volume_driver_opt (tab : unicode.CaseTable) (m : MountOpt)
    (S G D K V : Str) (hS : csv.plain S) (hG : csv.plain G) (hD : csv.plain D)
    (hK : csv.plain K) (hV : csv.plain V) (hS0 : S ≠ []) (hG0 : G ≠ [])
    (hKeq : ∀ c ∈ K, c ≠ '=') :
    MountOpt.Set tab m
        ("type=volume,source=".toList ++ S ++ ",target=".toList ++ G
          ++ ",volume-driver=".toList ++ D ++ ",volume-driver-opt=".toList ++ K ++ '=' :: V)
      = ({ values := m.values ++
            [{ Type_ := "VOLUME".toList, Source := S, Target := G, ReadOnly := false,
               BindOptions := none,
               VolumeOptions := some
                 { NoCopy := false, Labels := [],
                   DriverConfig := some { Name := D, Options := some [(K, V)] } } }] }, none)
    ∧ MountOpt.Set tab m
        ("type=volume,target=".toList ++ G
          ++ ",volume-driver=".toList ++ D ++ ",volume-driver-opt=".toList ++ K ++ '=' :: V)
      = (m, some (error.Errorf
          "source is required when specifying volume-* options".toList)) := by
  have hKV : csv.plain (K ++ '=' :: V) :=
    csv.plain_append _ _ hK (csv.plain_append ['='] V (by decide) hV)
  have e1 : "type=volume".toList = "type".toList ++ '=' :: "volume".toList := rfl
  have e2 : "source=".toList ++ S = "source".toList ++ '=' :: S := rfl
  have e3 : "target=".toList ++ G = "target".toList ++ '=' :: G := rfl
  have e4 : "volume-driver=".toList ++ D = "volume-driver".toList ++ '=' :: D := rfl
  have e5 : "volume-driver-opt=".toList ++ (K ++ '=' :: V)
      = "volume-driver-opt".toList ++ '=' :: (K ++ '=' :: V) := rfl
  have hmap : MountOpt.setValueOnMap [] (K ++ '=' :: V) = [(K, V)] := by
    simp [MountOpt.setValueOnMap, strings.SplitN2_key_value K V hKeq, StrMap.set]
  constructor
  · have hplain : ∀ f ∈ ["type=volume".toList, "source=".toList ++ S, "target=".toList ++ G,
        "volume-driver=".toList ++ D, "volume-driver-opt=".toList ++ (K ++ '=' :: V)],
        csv.plain f := by
      intro f hf
      simp only [List.mem_cons, List.mem_singleton, List.not_mem_nil, or_false] at hf
      rcases hf with rfl | rfl | rfl | rfl | rfl
      · decide
      · exact csv.plain_append _ _ (by decide) hS
      · exact csv.plain_append _ _ (by decide) hG
      · exact csv.plain_append _ _ (by decide) hD
      · exact csv.plain_append _ _ (by decide) hKV
    have hread := csv.Read_record _ (by simp) (by simp) hplain
    have hvalue : "type=volume,source=".toList ++ S ++ ",target=".toList ++ G
          ++ ",volume-driver=".toList ++ D ++ ",volume-driver-opt=".toList ++ K ++ '=' :: V
        = csv.record ["type=volume".toList, "source=".toList ++ S, "target=".toList ++ G,
            "volume-driver=".toList ++ D, "volume-driver-opt=".toList ++ (K ++ '=' :: V)] := by
      simp [csv.record]
    have hloop : MountOpt.setFields tab
        ["type=volume".toList, "source=".toList ++ S, "target=".toList ++ G,
          "volume-driver=".toList ++ D, "volume-driver-opt=".toList ++ (K ++ '=' :: V)] {}
        = Except.ok
            { Type_ := "VOLUME".toList, Source := S, Target := G,
              VolumeOptions := some
                { NoCopy := false, Labels := [],
                  DriverConfig := some { Name := D, Options := some [(K, V)] } } } := by
      rw [e1, e2, e3, e4, e5]
      rw [MountOpt.setFields_cons_ok tab _ _ _ _
        (MountOpt.setField_type tab _ "type".toList "volume".toList (by decide) rfl)]
      rw [MountOpt.setFields_cons_ok tab _ _ _ _
        (MountOpt.setField_source tab _ "source".toList S (by decide) rfl)]
      rw [MountOpt.setFields_cons_ok tab _ _ _ _
        (MountOpt.setField_target tab _ "target".toList G (by decide) rfl)]
      rw [MountOpt.setFields_cons_ok tab _ _ _ _
        (MountOpt.setField_volume_driver tab _ "volume-driver".toList D (by decide) rfl)]
      rw [MountOpt.setFields_cons_ok tab _ _ _ _
        (MountOpt.setField_volume_driver_opt tab _ "volume-driver-opt".toList
          (K ++ '=' :: V) (by decide) rfl)]
      simp only [MountOpt.setFields, MountOpt.volumeOptions, MountOpt.driverConfig, hmap]
      rfl
    rw [hvalue]
    unfold MountOpt.Set
    rw [hread]
    simp only [hloop]
    simp [MountOpt.check, hS0, hG0]
  · have hplain : ∀ f ∈ ["type=volume".toList, "target=".toList ++ G,
        "volume-driver=".toList ++ D, "volume-driver-opt=".toList ++ (K ++ '=' :: V)],
        csv.plain f := by
      intro f hf
      simp only [List.mem_cons, List.mem_singleton, List.not_mem_nil, or_false] at hf
      rcases hf with rfl | rfl | rfl | rfl
      · decide
      · exact csv.plain_append _ _ (by decide) hG
      · exact csv.plain_append _ _ (by decide) hD
      · exact csv.plain_append _ _ (by decide) hKV
    have hread := csv.Read_record _ (by simp) (by simp) hplain
    have hvalue : "type=volume,target=".toList ++ G
          ++ ",volume-driver=".toList ++ D ++ ",volume-driver-opt=".toList ++ K ++ '=' :: V
        = csv.record ["type=volume".toList, "target=".toList ++ G,
            "volume-driver=".toList ++ D, "volume-driver-opt=".toList ++ (K ++ '=' :: V)] := by
      simp [csv.record]
    have hloop : MountOpt.setFields tab
        ["type=volume".toList, "target=".toList ++ G,
          "volume-driver=".toList ++ D, "volume-driver-opt=".toList ++ (K ++ '=' :: V)] {}
        = Except.ok
            { Type_ := "VOLUME".toList, Source := [], Target := G,
              VolumeOptions := some
                { NoCopy := false, Labels := [],
                  DriverConfig := some { Name := D, Options := some [(K, V)] } } } := by
      rw [e1, e3, e4, e5]
      rw [MountOpt.setFields_cons_ok tab _ _ _ _
        (MountOpt.setField_type tab _ "type".toList "volume".toList (by decide) rfl)]
      rw [MountOpt.setFields_cons_ok tab _ _ _ _
        (MountOpt.setField_target tab _ "target".toList G (by decide) rfl)]
      rw [MountOpt.setFields_cons_ok tab _ _ _ _
        (MountOpt.setField_volume_driver tab _ "volume-driver".toList D (by decide) rfl)]
      rw [MountOpt.setFields_cons_ok tab _ _ _ _
        (MountOpt.setField_volume_driver_opt tab _ "volume-driver-opt".toList
          (K ++ '=' :: V) (by decide) rfl)]
      simp only [MountOpt.setFields, MountOpt.volumeOptions, MountOpt.driverConfig, hmap]
      rfl
    rw [hvalue]
    unfold MountOpt.Set
    rw [hread]
    simp only [hloop]
    simp [MountOpt.check, hG0]

/-- C4, amended, at the record
`type=volume,source=vol,target=/data,volume-driver=local,volume-driver-opt=foo=bar`:
the driver options are the map with `foo` mapped to `bar`. -/
theorem MountOpt.Set_volume_driver_opt_witness :
    MountOpt.Set unicode.noCaseTable {}
        ("type=volume,source=vol,target=/data,volume-driver=local,volume-driver-opt=foo=bar"
          ).toList
      = ({ values :=
            [{ Type_ := "VOLUME".toList, Source := "vol".toList, Target := "/data".toList,
               VolumeOptions := some
                 { DriverConfig := some
                     { Name := "local".toList,
                       Options := some [("foo".toList, "bar".toList)] } } }] }, none) :=
  (MountOpt.Set_volume_driver_opt unicode.noCaseTable {} "vol".toList "/data".toList
    "local".toList "foo".toList "bar".toList (by decide) (by decide) (by decide) (by decide)
    (by decide) (by decide) (by decide) (by decide)).1

/-! ## `serviceOptions.ToService`: the replication mode -/

/-- C6. `ToService` returns an error exactly when the mode is `global` and the
replica count was set, or the mode is neither `global` nor `replicated`.  When it
returns none, the mode `global` yields `Mode.Global` set and `Mode.Replicated`
absent, and the mode `replicated` yields `Mode.Replicated` set and `Mode.Global`
absent. -/
theorem serviceOptions.ToService_error_iff (tab : unicode.CaseTable) (lib : Lib)
    (opts : serviceOptions) :
    ((opts.ToService tab lib).2 ≠ none
      ↔ ((opts.mode = "global".toList ∧ opts.replicas.Value ≠ none)
          ∨ (opts.mode ≠ "global".toList ∧ opts.mode ≠ "replicated".toList)))
    ∧ ((opts.ToService tab lib).2 = none → opts.mode = "global".toList →
        (opts.ToService tab lib).1.Mode.Global ≠ none
          ∧ (opts.ToService tab lib).1.Mode.Replicated = none)
    ∧ ((opts.ToService tab lib).2 = none → opts.mode = "replicated".toList →
        (opts.ToService tab lib).1.Mode.Replicated ≠ none
          ∧ (opts.ToService tab lib).1.Mode.Global = none) := by
  by_cases hg : opts.mode = "global".toList
  · have hp : opts.mode ≠ "replicated".toList := by
      rw [hg]
      decide
    by_cases hr : opts.replicas.Value = none
    · rw [serviceOptions.ToService_global_unset tab lib opts hg hr]
      refine ⟨iff_of_false (fun h => h rfl) ?_, fun _ _ => ⟨by simp, rfl⟩,
        fun _ h => absurd h hp⟩
      rintro (⟨_, h⟩ | ⟨h, _⟩)
      · exact h hr
      · exact h hg
    · rw [serviceOptions.ToService_global_set tab lib opts hg hr]
      exact ⟨iff_of_true (by simp) (Or.inl ⟨hg, hr⟩), fun h => absurd h (by simp),
        fun h => absurd h (by simp)⟩
  · by_cases hp : opts.mode = "replicated".toList
    · rw [serviceOptions.ToService_eq_of_replicated tab lib opts hp]
      refine ⟨iff_of_false (fun h => h rfl) ?_, fun _ h => absurd h hg,
        fun _ _ => ⟨by simp, rfl⟩⟩
      rintro (⟨h, _⟩ | ⟨_, h⟩)
      · exact hg h
      · exact h hp
    · rw [serviceOptions.ToService_other tab lib opts hg hp]
      exact ⟨iff_of_true (by simp) (Or.inr ⟨hg, hp⟩), fun h => absurd h (by simp),
        fun h => absurd h (by simp)⟩

/-- What `ToService` returns for the mode `replicated`: no error, and a
replicated mode that carries the replica count as the option holds it, the nil
pointer when it was never set. -/
theorem serviceOptions.ToService_of_replicated (tab : unicode.CaseTable) (lib : Lib)
    (opts : serviceOptions) (hmode : opts.mode = "replicated".toList) :
    (opts.ToService tab lib).2 = none
    ∧ (opts.ToService tab lib).1.Mode.Replicated = some { Replicas := opts.replicas.Value }
    ∧ (opts.replicas.Value = none →
        (opts.ToService tab lib).1.Mode.Replicated = some { Replicas := none }) := by
  rw [serviceOptions.ToService_eq_of_replicated tab lib opts hmode]
  refine ⟨rfl, rfl, ?_⟩
  intro h
  simp only [h]

/-- C7, at the options with the mode `replicated` and the replica count never
set: `DefaultReplicas`, declared as the default replicas to use for a replicated
service, is 1, yet `ToService` never reads it; it returns no error and a
replicated mode whose replica count is the nil pointer, not a pointer to 1. -/
theorem serviceOptions.ToService_replicas_not_defaulted :
    DefaultReplicas = 1
    ∧ (serviceOptions.ToService unicode.noCaseTable Lib.plain
        { mode := "replicated".toList }).2 = none
    ∧ (serviceOptions.ToService unicode.noCaseTable Lib.plain
        { mode := "replicated".toList }).1.Mode.Replicated
      = some { Replicas := none }
    ∧ (serviceOptions.ToService unicode.noCaseTable Lib.plain
        { mode := "replicated".toList }).1.Mode.Replicated
      ≠ some { Replicas := some DefaultReplicas } := by
  refine ⟨rfl, rfl, rfl, ?_⟩
  decide

/-- C8, as stated, fails: with the mode `fanout` and the name `web` the
specification returned next to the error still carries the name, it is not the
empty specification. -/
theorem serviceOptions.ToService_fanout_keeps_name :
    (serviceOptions.ToService unicode.noCaseTable Lib.plain
        { name := "web".toList, mode := "fanout".toList }).2
      = some (error.Errorf "Unknown mode: fanout".toList)
    ∧ (serviceOptions.ToService unicode.noCaseTable Lib.plain
        { name := "web".toList, mode := "fanout".toList }).1.Annotations.Name = "web".toList
    ∧ (serviceOptions.ToService unicode.noCaseTable Lib.plain
        { name := "web".toList, mode := "fanout".toList }).1 ≠ {} := by
  refine ⟨by rfl, by rfl, ?_⟩
  intro h
  have := congrArg (fun s => s.Annotations.Name) h
  revert this
  decide

/-- C8, amended. With a mode other than `global` and `replicated`, `ToService`
fails with `Unknown mode: ` followed by the mode, and the specification returned
next to the error is the one built from the options, every supplied field filled
in, with neither `Mode.Global` nor `Mode.Replicated` set. -/
theorem serviceOptions.ToService_unknown_mode (tab : unicode.CaseTable) (lib : Lib)
    (opts : serviceOptions) (hg : opts.mode ≠ "global".toList)
    (hr : opts.mode ≠ "replicated".toList) :
    (opts.ToService tab lib).2 = some (error.Errorf ("Unknown mode: ".toList ++ opts.mode))
    ∧ (opts.ToService tab lib).1 = opts.service tab lib
    ∧ (opts.ToService tab lib).1.Annotations.Name = opts.name
    ∧ (opts.ToService tab lib).1.TaskTemplate.ContainerSpec.Image = opts.image
    ∧ (opts.ToService tab lib).1.TaskTemplate.ContainerSpec.Mounts = opts.mounts.Value
    ∧ (opts.ToService tab lib).1.Networks = convertNetworks opts.networks
    ∧ (opts.ToService tab lib).1.Mode = { Replicated := none, Global := none } := by
  rw [serviceOptions.ToService_other tab lib opts hg hr]
  exact ⟨rfl, rfl, rfl, rfl, rfl, rfl, rfl⟩

/-- C8, amended, at the options with the name `web` and the mode `fanout`. -/
theorem serviceOptions.ToService_unknown_mode_witness :
    (serviceOptions.ToService unicode.noCaseTable Lib.plain
        { name := "web".toList, mode := "fanout".toList }).2
      = some (error.Errorf "Unknown mode: fanout".toList)
    ∧ (serviceOptions.ToService unicode.noCaseTable Lib.plain
        { name := "web".toList, mode := "fanout".toList }).1.Annotations.Name
      = "web".toList :=
  have h := serviceOptions.ToService_unknown_mode unicode.noCaseTable Lib.plain
    { name := "web".toList, mode := "fanout".toList } (by decide) (by decide)
  ⟨h.1, h.2.2.1⟩

/-! ## `nanoCPUs.Set`: precision and range -/

/-- C9. `nanoCPUs.Set` returns no error exactly when the parser reads the string
as a rational `q` and `q * 10^9` is an integer; nothing is rounded.  With the
reference parser, `0.5` and `1/4` are accepted, `0.0000000001` and `1/3` are
rejected. -/
theorem nanoCPUs.Set_accepts_iff (SetString : Str → Option ℚ) (c : nanoCPUs) (s : Str) :
    ((nanoCPUs.Set SetString c s).2 = none
      ↔ ∃ q : ℚ, SetString s = some q ∧ ∃ n : ℤ, q * 10 ^ 9 = (n : ℚ))
    ∧ nanoCPUs.Set big.Rat.SetString c "0.5".toList = (500000000, none)
    ∧ nanoCPUs.Set big.Rat.SetString c "1/4".toList = (250000000, none)
    ∧ nanoCPUs.Set big.Rat.SetString c "0.0000000001".toList
        = (c, some (error.Errorf "value is too precise".toList))
    ∧ nanoCPUs.Set big.Rat.SetString c "1/3".toList
        = (c, some (error.Errorf "value is too precise".toList)) := by
  refine ⟨?_, ?_, ?_, ?_, ?_⟩
  · rw [nanoCPUs.Set_error_eq_none_iff]
    constructor
    · rintro ⟨q, hq, hi⟩
      refine ⟨q, hq, (q * 1000000000).num, ?_⟩
      have hden : (q * 1000000000).den = 1 := by simpa [Rat.isInt] using hi
      have := (Rat.den_eq_one_iff (q * 1000000000)).mp hden
      rw [this]
      norm_num
    · rintro ⟨q, hq, n, hn⟩
      refine ⟨q, hq, ?_⟩
      have h9 : q * 1000000000 = (n : ℚ) := by rw [← hn]; norm_num
      rw [h9]
      simp [Rat.isInt]
  · have h : big.Rat.SetString "0.5".toList = some (mkRat 5 10) := by
      have : big.Rat.scan "0.5".toList = some (5, 10) := by decide
      rw [big.Rat.SetString, this]
    rw [nanoCPUs.Set_of_parsed _ _ _ _ 500000000 h (by norm_num [Rat.mkRat_eq_div])]
    rfl
  · have h : big.Rat.SetString "1/4".toList = some (mkRat 1 4) := by
      have : big.Rat.scan "1/4".toList = some (1, 4) := by decide
      rw [big.Rat.SetString, this]
    rw [nanoCPUs.Set_of_parsed _ _ _ _ 250000000 h (by norm_num [Rat.mkRat_eq_div])]
    rfl
  · have h : big.Rat.SetString "0.0000000001".toList = some (mkRat 1 10000000000) := by
      have : big.Rat.scan "0.0000000001".toList = some (1, 10000000000) := by decide
      rw [big.Rat.SetString, this]
    have h2 : mkRat 1 10000000000 * 1000000000 = mkRat 1 10 := by
      norm_num [Rat.mkRat_eq_div]
    exact nanoCPUs.Set_of_too_precise _ _ _ _ h (by rw [h2]; decide)
  · have h : big.Rat.SetString "1/3".toList = some (mkRat 1 3) := by
      have : big.Rat.scan "1/3".toList = some (1, 3) := by decide
      rw [big.Rat.SetString, this]
    have h2 : mkRat 1 3 * 1000000000 = mkRat 1000000000 3 := by
      norm_num [Rat.mkRat_eq_div]
    exact nanoCPUs.Set_of_too_precise _ _ _ _ h (by rw [h2]; decide)

/-- C10, at the input `10000000000`: the string denotes `10^10`, which has no
fractional digits, and `10^10 * 10^9 = 10^19` lies above the largest `int64`;
`Set` reports no error and stores `10^19 - 2^64`, a negative number. -/
theorem nanoCPUs.Set_wraps_around (c : nanoCPUs) :
    big.Rat.SetString "10000000000".toList = some (10 ^ 10 : ℚ)
    ∧ nanoCPUs.Set big.Rat.SetString c "10000000000".toList
        = (-8446744073709551616, none)
    ∧ nanoCPUs.Value (nanoCPUs.Set big.Rat.SetString c "10000000000".toList).1
        ≠ 10 ^ 10 * 10 ^ 9 := by
  have h : big.Rat.SetString "10000000000".toList = some (mkRat 10000000000 1) := by
    have : big.Rat.scan "10000000000".toList = some (10000000000, 1) := by decide
    rw [big.Rat.SetString, this]
  have hset : nanoCPUs.Set big.Rat.SetString c "10000000000".toList
      = (-8446744073709551616, none) := by
    rw [nanoCPUs.Set_of_parsed _ _ _ _ 10000000000000000000 h
      (by norm_num [Rat.mkRat_eq_div])]
    rfl
  refine ⟨?_, hset, ?_⟩
  · rw [h]
    norm_num [Rat.mkRat_eq_div]
  · rw [hset]
    decide

/-- Where `q * 10^9` is an integer inside the range of `int64`, `Set` stores it
exactly. -/
theorem nanoCPUs.Set_exact_in_range (SetString : Str → Option ℚ) (c : nanoCPUs) (s : Str)
    (q : ℚ) (n : ℤ) (hq : SetString s = some q) (hn : q * 10 ^ 9 = (n : ℚ))
    (h1 : -2 ^ 63 ≤ n) (h2 : n < 2 ^ 63) :
    nanoCPUs.Set SetString c s = (n, none) := by
  have h9 : q * 1000000000 = (n : ℚ) := by rw [← hn]; norm_num
  rw [nanoCPUs.Set_of_parsed SetString c s q n hq h9, big.Int.Int64_of_range n h1 h2]

/-! ## Lemmas on `MountOpt.Set` as a whole -/

namespace MountOpt

/-- `Set` in terms of the record read, the loop and the checks. -/
theorem Set_of_read (tab : unicode.CaseTable) (m : MountOpt) (value : Str) (fields : List Str)
    (hr : csv.Read value = Except.ok fields) :
    Set tab m value =
      match setFields tab fields {} with
      | Except.error e => (m, some e)
      | Except.ok mount =>
        match check mount with
        | some e => (m, some e)
        | none => ({ m with values := m.values ++ [mount] }, none) := by
  unfold Set
  simp only [hr]

/-- A call of `Set` that returns no error has read the record, run the loop
and passed the checks, and appends the mount the loop built. -/
theorem Set_ok (tab : unicode.CaseTable) (m : MountOpt) (value : Str)
    (h : (Set tab m value).2 = none) :
    ∃ fields mount, csv.Read value = Except.ok fields
      ∧ setFields tab fields {} = Except.ok mount ∧ check mount = none
      ∧ Set tab m value = ({ values := m.values ++ [mount] }, none) := by
  cases hr : csv.Read value with
  | error e =>
    unfold Set at h
    rw [hr] at h
    cases h
  | ok fields =>
    have hset := Set_of_read tab m value fields hr
    rw [hset] at h
    cases hl : setFields tab fields {} with
    | error e => rw [hl] at h; cases h
    | ok mount =>
      rw [hl] at h hset
      cases hc : check mount with
      | some e => simp only [hc] at h; cases h
      | none =>
        simp only [hc] at hset
        exact ⟨fields, mount, rfl, hl, hc, hset⟩

/-- A call of `Set` that returns an error leaves the receiver as it was. -/
theorem Set_error_receiver (tab : unicode.CaseTable) (m : MountOpt) (value : Str)
    (h : (Set tab m value).2 ≠ none) : (Set tab m value).1 = m := by
  cases hr : csv.Read value with
  | error e =>
    unfold Set
    simp only [hr]
  | ok fields =>
    have hset := Set_of_read tab m value fields hr
    rw [hset] at h ⊢
    cases hl : setFields tab fields {} with
    | error e => rfl
    | ok mount =>
      rw [hl] at h
      cases hc : check mount with
      | some e => simp only [hc]
      | none =>
        simp only [hc] at h
        exact absurd rfl h

theorem SplitN2_bare (t : Str) (ht : ∀ c ∈ t, c ≠ '=') : strings.SplitN2 t = (t, none) := by
  induction t with
  | nil => rfl
  | cons c cs ih =>
    have hc : c ≠ '=' := ht c (List.mem_cons_self _ _)
    have hcs : ∀ d ∈ cs, d ≠ '=' := fun d hd => ht d (List.mem_cons_of_mem _ hd)
    simp [strings.SplitN2, hc, ih hcs]

/-- The loop body fails at a bare token that is neither shorthand. -/
theorem setField_bare_other (tab : unicode.CaseTable) (mount : swarm.Mount) (t : Str)
    (ht : ∀ c ∈ t, c ≠ '=') (h1 : strings.ToLower tab t ≠ "readonly".toList)
    (h2 : strings.ToLower tab t ≠ "volume-nocopy".toList) :
    setField tab mount t = Except.error (error.Errorf
      ("invalid field \'".toList ++ t ++ "\' must be a key=value pair".toList)) := by
  unfold setField
  rw [SplitN2_bare t ht]
  simp only
  rw [if_neg h1, if_neg h2]

/-- The loop fails when one of the fields makes the loop body fail whatever
the mount is. -/
theorem setFields_error_of_mem (tab : unicode.CaseTable) (fields : List Str)
    (mount : swarm.Mount) (f : Str) (hmem : f ∈ fields)
    (hf : ∀ mount0, ∃ e, setField tab mount0 f = Except.error e) :
    ∃ e, setFields tab fields mount = Except.error e := by
  induction fields generalizing mount with
  | nil => cases hmem
  | cons g rest ih =>
    unfold setFields
    cases hg : setField tab mount g with
    | error e => exact ⟨e, rfl⟩
    | ok mount2 =>
      rcases List.mem_cons.mp hmem with hfeq | hrest
      · obtain ⟨e, he⟩ := hf mount
        rw [hfeq, hg] at he
        cases he
      · exact ih mount2 hrest

/-- The loop over `pre ++ f :: post` once `pre` is through. -/
theorem setFields_append (tab : unicode.CaseTable) (pre post : List Str)
    (mount mount0 : swarm.Mount) (h : setFields tab pre mount = Except.ok mount0) :
    setFields tab (pre ++ post) mount = setFields tab post mount0 := by
  induction pre generalizing mount with
  | nil =>
    simp only [setFields, Except.ok.injEq] at h
    rw [List.nil_append, h]
  | cons g rest ih =>
    unfold setFields at h
    cases hg : setField tab mount g with
    | error e => rw [hg] at h; cases h
    | ok mount2 =>
      rw [hg] at h
      rw [List.cons_append, setFields, hg]
      exact ih mount2 h

/-- Replacing one field by another on which the loop body does the same leaves
the loop as it was. -/
theorem setFields_replace (tab : unicode.CaseTable) (pre post : List Str) (f g : Str)
    (mount : swarm.Mount) (hfg : ∀ mount0, setField tab mount0 f = setField tab mount0 g) :
    setFields tab (pre ++ f :: post) mount = setFields tab (pre ++ g :: post) mount := by
  induction pre generalizing mount with
  | nil =>
    simp only [List.nil_append]
    rw [setFields, setFields, hfg mount]
  | cons p rest ih =>
    simp only [List.cons_append]
    rw [setFields, setFields]
    cases hp : setField tab mount p with
    | error e => rfl
    | ok mount2 => exact ih mount2

end MountOpt

/-! ## `MountOpt.Set`: accumulation and failure -/

/-- C12. When `Set` succeeds on a record, `Value()` afterwards is what it was
before followed by exactly one new entry, and that entry is the one the record
yields on an empty `MountOpt`: what the receiver already holds, an equal entry
included, plays no part. -/
theorem MountOpt.Set_appends_one (tab : unicode.CaseTable) (m : MountOpt) (value : Str)
    (h : (MountOpt.Set tab m value).2 = none) :
    ∃ mount, MountOpt.Set tab {} value = ({ values := [mount] }, none)
      ∧ (MountOpt.Set tab m value).1.Value = m.Value ++ [mount] := by
  obtain ⟨fields, mount, hr, hl, hc, hset⟩ := MountOpt.Set_ok tab m value h
  refine ⟨mount, ?_, ?_⟩
  · rw [MountOpt.Set_of_read tab {} value fields hr, hl]
    simp only [hc]
    rfl
  · rw [hset]
    rfl

/-- C12, at a receiver that already holds the entry of
`type=bind,source=/a,target=/b` and is given the same record again: the entry is
appended a second time. -/
theorem MountOpt.Set_appends_one_witness :
    (MountOpt.Set unicode.noCaseTable
        { values := [{ Type_ := "BIND".toList, Source := "/a".toList, Target := "/b".toList }] }
        "type=bind,source=/a,target=/b".toList).2 = none
    ∧ ∃ mount, MountOpt.Set unicode.noCaseTable {} "type=bind,source=/a,target=/b".toList
          = ({ values := [mount] }, none)
      ∧ (MountOpt.Set unicode.noCaseTable
          { values := [{ Type_ := "BIND".toList, Source := "/a".toList,
                         Target := "/b".toList }] }
          "type=bind,source=/a,target=/b".toList).1.Value
        = MountOpt.Value
            { values := [{ Type_ := "BIND".toList, Source := "/a".toList,
                           Target := "/b".toList }] } ++ [mount] :=
  ⟨by decide, MountOpt.Set_appends_one unicode.noCaseTable _ _ (by decide)⟩

/-- C17. When `Set` returns an error, whatever the reason, `Value()` afterwards
is exactly what it was before the call. -/
theorem MountOpt.Set_atomic (tab : unicode.CaseTable) (m : MountOpt) (value : Str)
    (h : (MountOpt.Set tab m value).2 ≠ none) :
    (MountOpt.Set tab m value).1.Value = m.Value := by
  rw [MountOpt.Set_error_receiver tab m value h]

/-- C17, at a receiver that holds one entry and is given the record
`type=bind,readonly=maybe,target=/b`, whose boolean is invalid. -/
theorem MountOpt.Set_atomic_witness :
    (MountOpt.Set unicode.noCaseTable
        { values := [{ Type_ := "BIND".toList, Source := "/a".toList, Target := "/b".toList }] }
        "type=bind,readonly=maybe,target=/b".toList).1.Value
      = [{ Type_ := "BIND".toList, Source := "/a".toList, Target := "/b".toList }] :=
  MountOpt.Set_atomic unicode.noCaseTable _ _ (by decide)

/-- C18. The entry a successful `Set` appends has volume options exactly when
some field of the record has a volume-scoped key, and bind options exactly when
some field has the key `bind-propagation`. -/
theorem MountOpt.Set_options_iff (tab : unicode.CaseTable) (m : MountOpt) (value : Str)
    (fields : List Str) (hread : csv.Read value = Except.ok fields)
    (h : (MountOpt.Set tab m value).2 = none) :
    ∃ mount, (MountOpt.Set tab m value).1.Value = m.Value ++ [mount]
      ∧ (mount.VolumeOptions ≠ none ↔ MountOpt.supplies tab fields MountOpt.volumeKeys)
      ∧ (mount.BindOptions ≠ none
          ↔ MountOpt.supplies tab fields ["bind-propagation".toList]) := by
  obtain ⟨fields1, mount, hr, hl, _, hset⟩ := MountOpt.Set_ok tab m value h
  rw [hread] at hr
  obtain rfl := Except.ok.inj hr
  obtain ⟨hv, hb⟩ := MountOpt.setFields_options tab fields {} mount hl
  refine ⟨mount, ?_, ?_, ?_⟩
  · rw [hset]
    rfl
  · rw [hv]
    simp
  · rw [hb]
    simp

/-- C18, at the record `type=volume,source=v,target=/t,volume-label=a=b`. -/
theorem MountOpt.Set_options_iff_witness :
    ∃ mount, (MountOpt.Set unicode.noCaseTable {}
          "type=volume,source=v,target=/t,volume-label=a=b".toList).1.Value
        = MountOpt.Value {} ++ [mount]
      ∧ (mount.VolumeOptions ≠ none
          ↔ MountOpt.supplies unicode.noCaseTable
              ["type=volume".toList, "source=v".toList, "target=/t".toList,
                "volume-label=a=b".toList] MountOpt.volumeKeys)
      ∧ (mount.BindOptions ≠ none
          ↔ MountOpt.supplies unicode.noCaseTable
              ["type=volume".toList, "source=v".toList, "target=/t".toList,
                "volume-label=a=b".toList] ["bind-propagation".toList]) :=
  MountOpt.Set_options_iff unicode.noCaseTable {}
    "type=volume,source=v,target=/t,volume-label=a=b".toList _ (by decide) (by decide)

/-! ## `MountOpt.Set`: the spelling of keys -/

namespace MountOpt

/-- On two fields that differ at most in the letter case of the key the loop
body fails for both or yields the same mount. -/
theorem setField_sameButKeyCase (tab : unicode.CaseTable) (mount : swarm.Mount) (f g : Str)
    (h : sameButKeyCase tab f g) :
    (setField tab mount f).toOption = (setField tab mount g).toOption := by
  obtain ⟨hval, hkey⟩ := h
  unfold fieldKey at hkey
  rcases hf : strings.SplitN2 f with ⟨k1, o1⟩
  rcases hg : strings.SplitN2 g with ⟨k2, o2⟩
  rw [hf, hg] at hval hkey
  simp only at hval hkey
  subst hval
  cases o1 with
  | none =>
    have e1 : k1 = f := strings.SplitN2_none f k1 hf
    have e2 : k2 = g := strings.SplitN2_none g k2 hg
    subst e1 e2
    unfold setField
    rw [hf, hg]
    simp only
    rw [hkey]
    by_cases c1 : strings.ToLower tab k2 = "readonly".toList
    · rw [if_pos c1, if_pos c1]
    · rw [if_neg c1, if_neg c1]
      by_cases c2 : strings.ToLower tab k2 = "volume-nocopy".toList
      · rw [if_pos c2, if_pos c2]
      · rw [if_neg c2, if_neg c2]
        rfl
  | some v =>
    obtain ⟨ef, hk1⟩ := strings.SplitN2_some f k1 v hf
    obtain ⟨eg, hk2⟩ := strings.SplitN2_some g k2 v hg
    by_cases hk : strings.ToLower tab k2 ∈ knownKeys
    · simp only [knownKeys, List.mem_cons, List.mem_singleton, List.not_mem_nil,
        or_false] at hk
      rw [← hkey] at hk
      rcases hk with hk | hk | hk | hk | hk | hk | hk | hk | hk <;>
        simp [setField, hf, hg, ← hkey, hk]
    · have hk' : strings.ToLower tab k1 ∉ knownKeys := by rw [hkey]; exact hk
      rw [ef, eg, setField_unknown tab mount k1 v hk1 hk',
        setField_unknown tab mount k2 v hk2 hk]
      rfl

/-- On two field lists that differ at most in the letter case of the keys the
loop fails for both or yields the same mount. -/
theorem setFields_sameButKeyCase (tab : unicode.CaseTable) (fs1 fs2 : List Str)
    (mount : swarm.Mount) (h : List.Forall₂ (sameButKeyCase tab) fs1 fs2) :
    (setFields tab fs1 mount).toOption = (setFields tab fs2 mount).toOption := by
  induction fs1 generalizing fs2 mount with
  | nil =>
    cases h
    rfl
  | cons f rest1 ih =>
    obtain ⟨g, rest2, hfg, hrest, rfl⟩ := List.forall₂_cons_left_iff.mp h
    have hopt := setField_sameButKeyCase tab mount f g hfg
    rw [setFields, setFields]
    cases h1 : setField tab mount f with
    | error e1 =>
      cases h2 : setField tab mount g with
      | error e2 => rfl
      | ok m2 => rw [h1, h2] at hopt; cases hopt
    | ok m1 =>
      cases h2 : setField tab mount g with
      | error e2 => rw [h1, h2] at hopt; cases hopt
      | ok m2 =>
        rw [h1, h2] at hopt
        simp only [Except.toOption, Option.some.injEq] at hopt
        subst hopt
        exact ih rest2 m1 hrest

/-- The shorthand `readonly` does what `readonly=true` does. -/
theorem setField_readonly_shorthand (tab : unicode.CaseTable) (mount : swarm.Mount)
    (t k : Str) (ht : ∀ c ∈ t, c ≠ '=') (hk : ∀ c ∈ k, c ≠ '=')
    (hl : strings.ToLower tab t = "readonly".toList)
    (hkl : strings.ToLower tab k = "readonly".toList) :
    setField tab mount t = setField tab mount (k ++ "=true".toList) := by
  have e : k ++ "=true".toList = k ++ '=' :: "true".toList := rfl
  have hb : strconv.ParseBool "true".toList = some true := by decide
  have h1 : setField tab mount t = Except.ok { mount with ReadOnly := true } := by
    unfold setField
    rw [SplitN2_bare t ht]
    simp only
    rw [if_pos hl]
  have h2 : setField tab mount (k ++ '=' :: "true".toList)
      = Except.ok { mount with ReadOnly := true } := by
    simp [setField, strings.SplitN2_key_value k _ hk, hkl]
    simp [strconv.ParseBool]
  rw [e, h1, h2]

/-- The shorthand `volume-nocopy` does what `volume-nocopy=true` does. -/
theorem setField_nocopy_shorthand (tab : unicode.CaseTable) (mount : swarm.Mount)
    (t k : Str) (ht : ∀ c ∈ t, c ≠ '=') (hk : ∀ c ∈ k, c ≠ '=')
    (hl : strings.ToLower tab t = "volume-nocopy".toList)
    (hkl : strings.ToLower tab k = "volume-nocopy".toList) :
    setField tab mount t = setField tab mount (k ++ "=true".toList) := by
  have e : k ++ "=true".toList = k ++ '=' :: "true".toList := rfl
  have hne : "volume-nocopy".toList ≠ "readonly".toList := by decide
  have h1 : setField tab mount t
      = Except.ok { mount with
          VolumeOptions := some { volumeOptions mount with NoCopy := true } } := by
    unfold setField
    rw [SplitN2_bare t ht]
    simp only
    rw [if_neg (by rw [hl]; exact hne), if_pos hl]
  have h2 : setField tab mount (k ++ '=' :: "true".toList)
      = Except.ok { mount with
          VolumeOptions := some { volumeOptions mount with NoCopy := true } } := by
    simp [setField, strings.SplitN2_key_value k _ hk, hkl]
    simp [strconv.ParseBool]
  rw [e, h1, h2]

end MountOpt

/-- C13. Two records whose field lists differ at most in the letter case of the
keys (the text before the first `=` of a field, or a whole token without `=`)
are treated alike: `Set` fails on both or succeeds on both, and the receiver
afterwards, with the entry appended, is the same. -/
theorem MountOpt.Set_key_case (tab : unicode.CaseTable) (m : MountOpt) (r1 r2 : Str)
    (fs1 fs2 : List Str) (h1 : csv.Read r1 = Except.ok fs1)
    (h2 : csv.Read r2 = Except.ok fs2)
    (h : List.Forall₂ (MountOpt.sameButKeyCase tab) fs1 fs2) :
    (MountOpt.Set tab m r1).1 = (MountOpt.Set tab m r2).1
      ∧ ((MountOpt.Set tab m r1).2 = none ↔ (MountOpt.Set tab m r2).2 = none) := by
  have hopt := MountOpt.setFields_sameButKeyCase tab fs1 fs2 {} h
  rw [MountOpt.Set_of_read tab m r1 fs1 h1, MountOpt.Set_of_read tab m r2 fs2 h2]
  cases e1 : MountOpt.setFields tab fs1 {} with
  | error err1 =>
    cases e2 : MountOpt.setFields tab fs2 {} with
    | error err2 => simp
    | ok mount2 => rw [e1, e2] at hopt; cases hopt
  | ok mount1 =>
    cases e2 : MountOpt.setFields tab fs2 {} with
    | error err2 => rw [e1, e2] at hopt; cases hopt
    | ok mount2 =>
      rw [e1, e2] at hopt
      simp only [Except.toOption, Option.some.injEq] at hopt
      subst hopt
      simp

/-- C13, at the records `Type=bind,SOURCE=/a,target=/b,ReadOnly` and
`type=bind,source=/a,target=/b,readonly`. -/
theorem MountOpt.Set_key_case_witness :
    (MountOpt.Set unicode.noCaseTable {} "Type=bind,SOURCE=/a,target=/b,ReadOnly".toList).1
        = (MountOpt.Set unicode.noCaseTable {} "type=bind,source=/a,target=/b,readonly".toList).1
      ∧ ((MountOpt.Set unicode.noCaseTable {}
            "Type=bind,SOURCE=/a,target=/b,ReadOnly".toList).2 = none
          ↔ (MountOpt.Set unicode.noCaseTable {}
            "type=bind,source=/a,target=/b,readonly".toList).2 = none) :=
  MountOpt.Set_key_case unicode.noCaseTable {} _ _
    ["Type=bind".toList, "SOURCE=/a".toList, "target=/b".toList, "ReadOnly".toList]
    ["type=bind".toList, "source=/a".toList, "target=/b".toList, "readonly".toList]
    (by decide) (by decide)
    (List.Forall₂.cons ⟨by decide, by decide⟩
      (List.Forall₂.cons ⟨by decide, by decide⟩
        (List.Forall₂.cons ⟨by decide, by decide⟩
          (List.Forall₂.cons ⟨by decide, by decide⟩ List.Forall₂.nil))))

/-- C19. In a record, a token without `=` whose lower-cased text is `readonly`
(or `volume-nocopy`) can be replaced by `readonly=true` (or
`volume-nocopy=true`), the key in any letter case, and `Set` returns the same
error and leaves the same receiver, the same entry appended.  Every other token
without `=` makes `Set` fail. -/
theorem MountOpt.Set_shorthand (tab : unicode.CaseTable) (m : MountOpt) (r1 r2 : Str)
    (pre post : List Str) (t k : Str)
    (h1 : csv.Read r1 = Except.ok (pre ++ t :: post))
    (h2 : csv.Read r2 = Except.ok (pre ++ (k ++ "=true".toList) :: post))
    (ht : ∀ c ∈ t, c ≠ '=') (hk : ∀ c ∈ k, c ≠ '=')
    (hkt : strings.ToLower tab k = strings.ToLower tab t) :
    ((strings.ToLower tab t = "readonly".toList
        ∨ strings.ToLower tab t = "volume-nocopy".toList) →
      MountOpt.Set tab m r1 = MountOpt.Set tab m r2)
    ∧ (strings.ToLower tab t ≠ "readonly".toList →
        strings.ToLower tab t ≠ "volume-nocopy".toList →
        (MountOpt.Set tab m r1).2 ≠ none) := by
  constructor
  · intro hsh
    have hfg : ∀ mount0, MountOpt.setField tab mount0 t
        = MountOpt.setField tab mount0 (k ++ "=true".toList) := by
      intro mount0
      rcases hsh with hl | hl
      · exact MountOpt.setField_readonly_shorthand tab mount0 t k ht hk hl (hkt.trans hl)
      · exact MountOpt.setField_nocopy_shorthand tab mount0 t k ht hk hl (hkt.trans hl)
    rw [MountOpt.Set_of_read tab m r1 _ h1, MountOpt.Set_of_read tab m r2 _ h2,
      MountOpt.setFields_replace tab pre post t (k ++ "=true".toList) {} hfg]
  · intro hn1 hn2
    obtain ⟨e, he⟩ := MountOpt.setFields_error_of_mem tab (pre ++ t :: post) {} t
      (by simp) (fun mount0 => ⟨_, MountOpt.setField_bare_other tab mount0 t ht hn1 hn2⟩)
    rw [MountOpt.Set_of_read tab m r1 _ h1, he]
    simp

/-- C19, at the records `type=bind,target=/b,readonly` and
`type=bind,target=/b,readonly=true`, at `type=volume,source=v,target=/b,Volume-NoCopy`
and `type=volume,source=v,target=/b,volume-nocopy=true`, and at the record
`type=bind,target=/b,writable`, whose bare token is no shorthand. -/
theorem MountOpt.Set_shorthand_witness :
    MountOpt.Set unicode.noCaseTable {} "type=bind,target=/b,readonly".toList
        = MountOpt.Set unicode.noCaseTable {} "type=bind,target=/b,readonly=true".toList
    ∧ MountOpt.Set unicode.noCaseTable {} "type=volume,source=v,target=/b,Volume-NoCopy".toList
        = MountOpt.Set unicode.noCaseTable {}
            "type=volume,source=v,target=/b,volume-nocopy=true".toList
    ∧ (MountOpt.Set unicode.noCaseTable {} "type=bind,target=/b,writable".toList).2 ≠ none :=
  ⟨(MountOpt.Set_shorthand unicode.noCaseTable {} "type=bind,target=/b,readonly".toList
      "type=bind,target=/b,readonly=true".toList ["type=bind".toList, "target=/b".toList] []
      "readonly".toList "readonly".toList (by decide) (by decide) (by decide) (by decide)
      (by decide)).1 (Or.inl (by decide)),
    (MountOpt.Set_shorthand unicode.noCaseTable {}
      "type=volume,source=v,target=/b,Volume-NoCopy".toList
      "type=volume,source=v,target=/b,volume-nocopy=true".toList
      ["type=volume".toList, "source=v".toList, "target=/b".toList] []
      "Volume-NoCopy".toList "volume-nocopy".toList (by decide) (by decide) (by decide)
      (by decide) (by decide)).1 (Or.inr (by decide)),
    (MountOpt.Set_shorthand unicode.noCaseTable {} "type=bind,target=/b,writable".toList
      "type=bind,target=/b,writable=true".toList ["type=bind".toList, "target=/b".toList] []
      "writable".toList "writable".toList (by decide) (by decide) (by decide) (by decide)
      (by decide)).2 (by decide) (by decide)⟩

/-- C20, as stated, fails: at the record `type=bind,colour=red,target=/b` the
error names the key `colour` and the field `colour=red`; the record string is
no part of the message. -/
theorem MountOpt.Set_message_lacks_record :
    (MountOpt.Set unicode.noCaseTable {} "type=bind,colour=red,target=/b".toList).2
      = some (error.Errorf "unexpected key \'colour\' in \'colour=red\'".toList)
    ∧ ¬ List.IsInfix "type=bind,colour=red,target=/b".toList
        "unexpected key \'colour\' in \'colour=red\'".toList := by
  constructor
  · decide
  · decide

/-- C20, amended. When the fields before `K=V` are accepted and the lower-cased
`K` is no known key, `Set` fails with the message `unexpected key 'K' in 'K=V'`:
it names the key and the field the key stands in, not the record. -/
theorem MountOpt.Set_names_key_and_field (tab : unicode.CaseTable) (m : MountOpt)
    (value : Str) (pre post : List Str) (K V : Str) (mount0 : swarm.Mount)
    (hread : csv.Read value = Except.ok (pre ++ (K ++ '=' :: V) :: post))
    (hpre : MountOpt.setFields tab pre {} = Except.ok mount0)
    (hK : ∀ c ∈ K, c ≠ '=') (hk : strings.ToLower tab K ∉ MountOpt.knownKeys) :
    MountOpt.Set tab m value
        = (m, some (error.Errorf ("unexpected key \'".toList ++ K ++ "\' in \'".toList
            ++ (K ++ '=' :: V) ++ "\'".toList)))
      ∧ List.IsInfix K ("unexpected key \'".toList ++ K ++ "\' in \'".toList
            ++ (K ++ '=' :: V) ++ "\'".toList)
      ∧ List.IsInfix (K ++ '=' :: V) ("unexpected key \'".toList ++ K ++ "\' in \'".toList
            ++ (K ++ '=' :: V) ++ "\'".toList) := by
  refine ⟨?_, ?_, ?_⟩
  · rw [MountOpt.Set_of_read tab m value _ hread,
      MountOpt.setFields_append tab pre _ {} mount0 hpre, MountOpt.setFields,
      MountOpt.setField_unknown tab mount0 K V hK hk]
  · exact ⟨"unexpected key \'".toList, "\' in \'".toList ++ (K ++ '=' :: V) ++ "\'".toList,
      by simp⟩
  · exact ⟨"unexpected key \'".toList ++ K ++ "\' in \'".toList, "\'".toList, by simp⟩

/-- C20, amended, at the record `type=bind,colour=red,target=/b`. -/
theorem MountOpt.Set_names_key_and_field_witness :
    MountOpt.Set unicode.noCaseTable {} "type=bind,colour=red,target=/b".toList
      = ({}, some (error.Errorf "unexpected key \'colour\' in \'colour=red\'".toList)) :=
  (MountOpt.Set_names_key_and_field unicode.noCaseTable {}
    "type=bind,colour=red,target=/b".toList ["type=bind".toList] ["target=/b".toList]
    "colour".toList "red".toList { Type_ := "BIND".toList }
    (by decide) (by decide) (by decide) (by decide)).1

/-! ## Published ports -/

theorem ValidatePort.hasHostIP_iff (portMappings : List nat.PortMapping) :
    ValidatePort.hasHostIP portMappings = true
      ↔ ∃ pm ∈ portMappings, pm.Binding.HostIP ≠ [] := by
  induction portMappings with
  | nil => simp [ValidatePort.hasHostIP]
  | cons pm rest ih =>
    unfold ValidatePort.hasHostIP
    by_cases h : pm.Binding.HostIP = []
    · simp [h, ih]
    · simp [h]

/-- C14. A publish string one of whose parsed port mappings has a host IP makes
`ValidatePort` return the empty string and an error, so the list option built
on `ValidatePort` does not store the string.  A string that parses without
error and has no mapping with a host IP is returned unchanged with no error,
and is stored.  With the stand-in parser, `127.0.0.1:8080:80` is rejected and
`8080:80` is accepted. -/
theorem ValidatePort_host_ip (ParsePortSpec : Str → List nat.PortMapping × Option error)
    (value : Str) (o : opts.ListOpts) :
    ((∃ pm ∈ (ParsePortSpec value).1, pm.Binding.HostIP ≠ []) →
      ValidatePort ParsePortSpec value
          = ([], some (error.Errorf "HostIP is not supported by a service.".toList))
        ∧ opts.ListOpts.Set (ValidatePort ParsePortSpec) o value
          = (o, some (error.Errorf "HostIP is not supported by a service.".toList)))
    ∧ ((ParsePortSpec value).2 = none →
        (∀ pm ∈ (ParsePortSpec value).1, pm.Binding.HostIP = []) →
      ValidatePort ParsePortSpec value = (value, none)
        ∧ opts.ListOpts.Set (ValidatePort ParsePortSpec) o value
          = ({ values := o.values ++ [value] }, none))
    ∧ ValidatePort nat.ParsePortSpec "127.0.0.1:8080:80".toList
        = ([], some (error.Errorf "HostIP is not supported by a service.".toList))
    ∧ ValidatePort nat.ParsePortSpec "8080:80".toList = ("8080:80".toList, none) := by
  refine ⟨?_, ?_, by decide, by decide⟩
  · intro h
    have hv : ValidatePort ParsePortSpec value
        = ([], some (error.Errorf "HostIP is not supported by a service.".toList)) := by
      unfold ValidatePort
      rcases hp : ParsePortSpec value with ⟨pms, err⟩
      rw [hp] at h
      simp only
      rw [if_pos ((ValidatePort.hasHostIP_iff pms).mpr h)]
    refine ⟨hv, ?_⟩
    unfold opts.ListOpts.Set
    rw [hv]
  · intro herr hno
    have hv : ValidatePort ParsePortSpec value = (value, none) := by
      unfold ValidatePort
      rcases hp : ParsePortSpec value with ⟨pms, err⟩
      rw [hp] at herr hno
      simp only at herr hno ⊢
      have : ¬ ValidatePort.hasHostIP pms = true := by
        rw [ValidatePort.hasHostIP_iff]
        rintro ⟨pm, hpm, hip⟩
        exact hip (hno pm hpm)
      rw [if_neg this, herr]
    refine ⟨hv, ?_⟩
    unfold opts.ListOpts.Set
    rw [hv]

/-! ## `DurationOpt` and `Uint64Opt`: unset against zero -/

/-- C16. An option on which `Set` was never called has `Value()` nil and
`String()` equal to `none`.  After `Set` of `0s` on a `DurationOpt`, and of `0`
on a `Uint64Opt`, provided the library parses these as zero without error,
`Set` returns no error, `Value()` is a pointer to zero, and `String()` is not
`none` (for the `DurationOpt`: provided the library does not write the zero
duration as `none`). -/
theorem unset_is_not_zero (ParseDuration : Str → time.Duration × Option error)
    (durationString : time.Duration → Str) (ParseUint : Str → ℕ × Option error)
    (d : DurationOpt) (i : Uint64Opt)
    (hd : ParseDuration "0s".toList = (0, none))
    (hs : durationString 0 ≠ "none".toList)
    (hu : ParseUint "0".toList = (0, none)) :
    (DurationOpt.Value {} = none ∧ DurationOpt.String durationString {} = "none".toList
      ∧ Uint64Opt.Value {} = none ∧ Uint64Opt.String {} = "none".toList)
    ∧ ((DurationOpt.Set ParseDuration d "0s".toList).2 = none
      ∧ (DurationOpt.Set ParseDuration d "0s".toList).1.Value = some 0
      ∧ DurationOpt.String durationString (DurationOpt.Set ParseDuration d "0s".toList).1
          ≠ "none".toList)
    ∧ ((Uint64Opt.Set ParseUint i "0".toList).2 = none
      ∧ (Uint64Opt.Set ParseUint i "0".toList).1.Value = some 0
      ∧ Uint64Opt.String (Uint64Opt.Set ParseUint i "0".toList).1 = "0".toList
      ∧ Uint64Opt.String (Uint64Opt.Set ParseUint i "0".toList).1 ≠ "none".toList) := by
  have hD : DurationOpt.Set ParseDuration d "0s".toList = ({ value := some 0 }, none) := by
    unfold DurationOpt.Set
    rw [hd]
  have hU : Uint64Opt.Set ParseUint i "0".toList = ({ value := some 0 }, none) := by
    unfold Uint64Opt.Set
    rw [hu]
  refine ⟨⟨rfl, rfl, rfl, rfl⟩, ⟨?_, ?_, ?_⟩, ⟨?_, ?_, ?_, ?_⟩⟩
  · rw [hD]
  · rw [hD]
    rfl
  · rw [hD]
    exact hs
  · rw [hU]
  · rw [hU]
    rfl
  · rw [hU]
    decide
  · rw [hU]
    decide

/-- C16, with the stand-ins for the library. -/
theorem unset_is_not_zero_witness :
    (DurationOpt.Set time.ParseDuration {} "0s".toList).1.Value = some 0
    ∧ DurationOpt.String time.Duration.String
        (DurationOpt.Set time.ParseDuration {} "0s".toList).1 ≠ "none".toList
    ∧ (Uint64Opt.Set strconv.ParseUint {} "0".toList).1.Value = some 0
    ∧ Uint64Opt.String (Uint64Opt.Set strconv.ParseUint {} "0".toList).1 ≠ "none".toList :=
  have h := unset_is_not_zero time.ParseDuration time.Duration.String strconv.ParseUint {} {}
    (by decide) (by decide) (by decide)
  ⟨h.2.1.2.1, h.2.1.2.2, h.2.2.2.1, h.2.2.2.2.2⟩

/-! ## Resource quantities: sign and range -/

/-- `memBytes.Set` stores what the library answers. -/
theorem memBytes.Set_eq (RAMInBytes : Str → ℤ × Option error) (m : memBytes) (s : Str) :
    memBytes.Set RAMInBytes m s = ((RAMInBytes s).1, (RAMInBytes s).2) := by
  unfold memBytes.Set
  rfl

/-- A CPU quantity stored from a string that denotes a `q` that is not negative,
with `q * 10^9` below `2^63`, is not negative. -/
theorem nanoCPUs.nonneg_of_settableInRange (SetString : Str → Option ℚ) (c : nanoCPUs)
    (h : nanoCPUs.settableInRange SetString c) : 0 ≤ c := by
  rcases h with h0 | ⟨c0, s, q, hq, hq0, hlt, hset⟩
  · rw [h0]
  · have hnone : (nanoCPUs.Set SetString c0 s).2 = none := by rw [hset]
    obtain ⟨q1, hq1, hint⟩ := (nanoCPUs.Set_error_eq_none_iff SetString c0 s).mp hnone
    rw [hq] at hq1
    obtain rfl := Option.some.inj hq1
    have hden : (q * 1000000000).den = 1 := by simpa [Rat.isInt] using hint
    have hn : q * 1000000000 = ((q * 1000000000).num : ℚ) :=
      ((Rat.den_eq_one_iff (q * 1000000000)).mp hden).symm
    have h9 : q * 10 ^ 9 = q * 1000000000 := by norm_num
    have hpos : (0 : ℚ) ≤ ((q * 1000000000).num : ℚ) := by
      rw [← hn]
      positivity
    have hlt2 : (((q * 1000000000).num : ℤ) : ℚ) < ((2 ^ 63 : ℤ) : ℚ) := by
      rw [← hn, ← h9]
      exact_mod_cast hlt
    have hpos' : (0 : ℤ) ≤ (q * 1000000000).num := by exact_mod_cast hpos
    have hlt' : (q * 1000000000).num < 2 ^ 63 := by exact_mod_cast hlt2
    rw [nanoCPUs.Set_of_parsed SetString c0 s q _ hq hn,
      big.Int.Int64_of_range _ (by omega) hlt'] at hset
    have hc : (q * 1000000000).num = c := congrArg Prod.fst hset
    rw [← hc]
    exact hpos'

/-- C11, as stated, fails: `nanoCPUs.Set` accepts `-1` without error and stores
`-10^9`, and the CPU limit of the resource requirements is then negative. -/
theorem resourceOptions.negative_cpu_accepted :
    nanoCPUs.Set big.Rat.SetString 0 "-1".toList = (-1000000000, none)
    ∧ nanoCPUs.settable big.Rat.SetString (-1000000000)
    ∧ (resourceOptions.ToResourceRequirements { limitCPU := -1000000000 }).Limits
        = some { NanoCPUs := -1000000000, MemoryBytes := 0 }
    ∧ (-1000000000 : ℤ) < 0 := by
  have h : big.Rat.SetString "-1".toList = some (mkRat (-1) 1) := by
    have : big.Rat.scan "-1".toList = some (-1, 1) := by decide
    rw [big.Rat.SetString, this]
  have hset : nanoCPUs.Set big.Rat.SetString 0 "-1".toList = (-1000000000, none) := by
    rw [nanoCPUs.Set_of_parsed _ _ _ _ (-1000000000) h (by norm_num [Rat.mkRat_eq_div])]
    rfl
  exact ⟨hset, Or.inr ⟨0, "-1".toList, hset⟩, rfl, by decide⟩

/-- C11, amended. `ToResourceRequirements` hands on the four quantities as they
are stored, zero for one never set.  All four are at least zero when each CPU
quantity was never set or was stored by a `nanoCPUs.Set` without error from a
string that denotes a `q` that is not negative with `q * 10^9` below `2^63`, and
each memory quantity was never set or was stored by a `memBytes.Set` without
error for which the library answered a size that is not negative. -/
theorem resourceOptions.ToResourceRequirements_nonneg (SetString : Str → Option ℚ)
    (RAMInBytes : Str → ℤ × Option error) (r : resourceOptions)
    (h1 : nanoCPUs.settableInRange SetString r.limitCPU)
    (h2 : memBytes.settableNonneg RAMInBytes r.limitMemBytes)
    (h3 : nanoCPUs.settableInRange SetString r.resCPU)
    (h4 : memBytes.settableNonneg RAMInBytes r.resMemBytes) :
    ∃ limits reservations,
      r.ToResourceRequirements = { Limits := some limits, Reservations := some reservations }
      ∧ limits.NanoCPUs = r.limitCPU ∧ limits.MemoryBytes = r.limitMemBytes
      ∧ reservations.NanoCPUs = r.resCPU ∧ reservations.MemoryBytes = r.resMemBytes
      ∧ 0 ≤ limits.NanoCPUs ∧ 0 ≤ limits.MemoryBytes
      ∧ 0 ≤ reservations.NanoCPUs ∧ 0 ≤ reservations.MemoryBytes
      ∧ resourceOptions.ToResourceRequirements {}
          = { Limits := some { NanoCPUs := 0, MemoryBytes := 0 },
              Reservations := some { NanoCPUs := 0, MemoryBytes := 0 } } := by
  have hmem : ∀ m, memBytes.settableNonneg RAMInBytes m → 0 ≤ m := by
    intro m hm
    rcases hm with h0 | ⟨m0, s, hs, hset⟩
    · rw [h0]
    · rw [memBytes.Set_eq] at hset
      have : (RAMInBytes s).1 = m := congrArg Prod.fst hset
      rw [← this]
      exact hs
  exact ⟨{ NanoCPUs := r.limitCPU, MemoryBytes := r.limitMemBytes },
    { NanoCPUs := r.resCPU, MemoryBytes := r.resMemBytes }, rfl, rfl, rfl, rfl, rfl,
    nanoCPUs.nonneg_of_settableInRange SetString _ h1, hmem _ h2,
    nanoCPUs.nonneg_of_settableInRange SetString _ h3, hmem _ h4, rfl⟩

/-- C11, amended, at the options with the CPU limit set from `0.5`, the memory
limit set from `1024` and the reservations never set. -/
theorem resourceOptions.ToResourceRequirements_nonneg_witness :
    ∃ limits reservations,
      resourceOptions.ToResourceRequirements { limitCPU := 500000000, limitMemBytes := 1024 }
        = { Limits := some limits, Reservations := some reservations }
      ∧ limits.NanoCPUs = 500000000 ∧ limits.MemoryBytes = 1024
      ∧ reservations.NanoCPUs = 0 ∧ reservations.MemoryBytes = 0
      ∧ 0 ≤ limits.NanoCPUs ∧ 0 ≤ limits.MemoryBytes
      ∧ 0 ≤ reservations.NanoCPUs ∧ 0 ≤ reservations.MemoryBytes
      ∧ resourceOptions.ToResourceRequirements {}
          = { Limits := some { NanoCPUs := 0, MemoryBytes := 0 },
              Reservations := some { NanoCPUs := 0, MemoryBytes := 0 } } :=
  resourceOptions.ToResourceRequirements_nonneg big.Rat.SetString units.RAMInBytes
    { limitCPU := 500000000, limitMemBytes := 1024 }
    (Or.inr ⟨0, "0.5".toList, mkRat 5 10,
      by
        have : big.Rat.scan "0.5".toList = some (5, 10) := by decide
        rw [big.Rat.SetString, this],
      by norm_num [Rat.mkRat_eq_div], by norm_num [Rat.mkRat_eq_div],
      by
        have h : big.Rat.SetString "0.5".toList = some (mkRat 5 10) := by
          have : big.Rat.scan "0.5".toList = some (5, 10) := by decide
          rw [big.Rat.SetString, this]
        rw [nanoCPUs.Set_of_parsed _ _ _ _ 500000000 h (by norm_num [Rat.mkRat_eq_div])]
        rfl⟩)
    (Or.inr ⟨0, "1024".toList, by decide, by decide⟩)
    (Or.inl rfl) (Or.inl rfl)

/-! ## `ToEndpointSpec`: the order of the port entries -/

/-- The entries `ToEndpointSpec` emits: for each key of the port map, in the
order the `range` statement visits the keys, one entry for each binding of the
key, in the order of its binding list. -/
theorem endpointOptions.ToEndpointSpec_Ports (tab : unicode.CaseTable) (lib : Lib)
    (e : endpointOptions) (ports : List nat.Port) (pb : nat.Port → List nat.PortBinding)
    (h : lib.ParsePortSpecs e.ports.GetAll = (ports, pb)) :
    (e.ToEndpointSpec tab lib).Ports
      = (ports.map (fun p => convertPortToPortConfig tab lib p pb)).flatten := by
  unfold endpointOptions.ToEndpointSpec
  rw [h]

/-- C15, as stated, fails: for the publish strings `8080:80` and `8443:443` the
map of ports has two keys, and the two orders in which the `range` statement can
visit them give the two entries in the two orders; one of them is not the order
of the strings. -/
theorem endpointOptions.ToEndpointSpec_order_not_fixed :
    (endpointOptions.ToEndpointSpec unicode.noCaseTable (Lib.publish id)
        { ports := { values := ["8080:80".toList, "8443:443".toList] } }).Ports
      = [{ Protocol := "tcp".toList, TargetPort := 80, PublishedPort := 8080 },
         { Protocol := "tcp".toList, TargetPort := 443, PublishedPort := 8443 }]
    ∧ (endpointOptions.ToEndpointSpec unicode.noCaseTable (Lib.publish List.reverse)
        { ports := { values := ["8080:80".toList, "8443:443".toList] } }).Ports
      = [{ Protocol := "tcp".toList, TargetPort := 443, PublishedPort := 8443 },
         { Protocol := "tcp".toList, TargetPort := 80, PublishedPort := 8080 }] := by
  constructor <;> decide

/-- C15, amended. `ToEndpointSpec` emits exactly one entry for each host
binding: as many entries as the keys of the port map have bindings together.
The entries of one container port stand together and follow the binding list
of that port; when the publish strings give one container port with the two
bindings `b1`, `b2` in this order, the two entries carry their host ports in
this order.  Among different container ports the order is the one in which the
`range` statement visits the keys of the map. -/
theorem endpointOptions.ToEndpointSpec_one_per_binding (tab : unicode.CaseTable) (lib : Lib)
    (e : endpointOptions) (ports : List nat.Port) (pb : nat.Port → List nat.PortBinding)
    (h : lib.ParsePortSpecs e.ports.GetAll = (ports, pb)) :
    (e.ToEndpointSpec tab lib).Ports.length = (ports.map (fun p => (pb p).length)).sum
    ∧ (∀ p ∈ ports, ∃ before after,
        (e.ToEndpointSpec tab lib).Ports = before ++ (pb p).map (fun b =>
            { Protocol := strings.ToLower tab (lib.Proto p),
              TargetPort := uint32 (lib.PortInt p),
              PublishedPort := uint32 (lib.ParseUint b.HostPort) }) ++ after)
    ∧ (∀ p b1 b2, ports = [p] → pb p = [b1, b2] →
        (e.ToEndpointSpec tab lib).Ports
          = [{ Protocol := strings.ToLower tab (lib.Proto p),
               TargetPort := uint32 (lib.PortInt p),
               PublishedPort := uint32 (lib.ParseUint b1.HostPort) },
             { Protocol := strings.ToLower tab (lib.Proto p),
               TargetPort := uint32 (lib.PortInt p),
               PublishedPort := uint32 (lib.ParseUint b2.HostPort) }])
    ∧ (∀ p1 p2, ports = [p1, p2] →
        (e.ToEndpointSpec tab lib).Ports
          = convertPortToPortConfig tab lib p1 pb ++ convertPortToPortConfig tab lib p2 pb) := by
  have hP := endpointOptions.ToEndpointSpec_Ports tab lib e ports pb h
  refine ⟨?_, ?_, ?_, ?_⟩
  · rw [hP]
    simp [List.length_flatten, convertPortToPortConfig, Function.comp_def]
  · intro p hp
    rw [hP]
    obtain ⟨l1, l2, hl⟩ := List.append_of_mem hp
    refine ⟨(l1.map (fun p => convertPortToPortConfig tab lib p pb)).flatten,
      (l2.map (fun p => convertPortToPortConfig tab lib p pb)).flatten, ?_⟩
    rw [hl]
    simp [convertPortToPortConfig]
  · intro p b1 b2 hports hpb
    rw [hP, hports]
    simp [convertPortToPortConfig, hpb]
  · intro p1 p2 hports
    rw [hP, hports]
    simp

/-- C15, amended, at the publish strings `8080:80` and `8081:80`, which bind two
host ports to one container port: whatever way the keys are visited (here in
reverse), the entry of `8080` comes before the entry of `8081`. -/
theorem endpointOptions.ToEndpointSpec_one_per_binding_witness :
    (endpointOptions.ToEndpointSpec unicode.noCaseTable (Lib.publish List.reverse)
        { ports := { values := ["8080:80".toList, "8081:80".toList] } }).Ports
      = [{ Protocol := "tcp".toList, TargetPort := 80, PublishedPort := 8080 },
         { Protocol := "tcp".toList, TargetPort := 80, PublishedPort := 8081 }] :=
  (endpointOptions.ToEndpointSpec_one_per_binding unicode.noCaseTable
    (Lib.publish List.reverse)
    { ports := { values := ["8080:80".toList, "8081:80".toList] } }
    ["80/tcp".toList]
    (nat.bindings ["8080:80".toList, "8081:80".toList]) (Prod.ext (by decide) rfl)).2.2.1
    "80/tcp".toList { HostPort := "8080".toList } { HostPort := "8081".toList }
    rfl (by decide)
